import Mathlib

/-!
Shallow embedding of the styml single-header StrictYAML parser/emitter
(styml.h).  Definitions mirror the C++ source: the element store, the
string arena, the wyhash-based map child index, the Node API, the
tokenizer `getToken`, the tree builder `parse`, and the emitters
`dumpAsYaml` / `dumpAsPyStruct`.  Characters stand for bytes (all
concrete inputs are ASCII); machine integers are Nat with explicit
`% 2^w` where overflow matters; C `assert` has release (no-op)
semantics; out-of-bounds reads that in C land on the terminating NUL
are modelled by a NUL default.
-/

namespace Styml

/-- The NUL byte used as default for reads beyond the buffer. -/
def nulChar : Char := Char.ofNat 0

/-- Read a byte of the buffer, NUL when out of bounds. -/
def charAt (s : List Char) (i : Nat) : Char := s.getD i nulChar

/-- A single-quote character (kept out of string literals). -/
def squote : Char := Char.ofNat 39

/-- The single-quote as a string, for building messages. -/
def sq : String := String.mk [squote]

/-- Coerce a Lean string literal to the byte-list world. -/
def str (s : String) : List Char := s.data

/-- C strncmp(a, b, n) == 0: compare up to n bytes, stopping early at a
NUL that both sides share. -/
def strncmpEq (a b : List Char) : Nat → Bool
  | 0 => true
  | n + 1 =>
    let ca := charAt a 0
    let cb := charAt b 0
    if ca ≠ cb then false
    else if ca = nulChar then true
    else strncmpEq (a.drop 1) (b.drop 1) n

/-- Read a NUL-terminated C string out of the arena starting at idx. -/
def cString (arena : List Char) (idx : Nat) : List Char :=
  (arena.drop idx).takeWhile (fun c => c ≠ nulChar)

/-- The C++ NodeType enum. -/
inductive NodeType where
  | UNKNOWN | KEY | VALUE | SEQUENCE | MAP | COMMENT
deriving DecidableEq, Repr

export NodeType (UNKNOWN KEY VALUE SEQUENCE MAP COMMENT)

/-- One element record of the tree (C++ detail::Element).  The bit-packed
union is rendered as a sum; the container capacity field is behaviourally
irrelevant and omitted. -/
inductive Element where
  | unknown : Element
  | key (stringIdx stringSize : Nat) (eltIdx : Nat) (commentIdx : Nat) : Element
  | value (stringIdx stringSize : Nat) (commentIdx : Nat) : Element
  | comment (stringIdx stringSize : Nat) (standalone : Bool) (commentIdx : Nat) : Element
  | sequence (subs : List Nat) : Element
  | map (subs : List Nat) : Element
deriving DecidableEq, Repr

namespace Element

/-- Element::getType. -/
def getType : Element → NodeType
  | .unknown => UNKNOWN
  | .key _ _ _ _ => KEY
  | .value _ _ _ => VALUE
  | .comment _ _ _ _ => COMMENT
  | .sequence _ => SEQUENCE
  | .map _ => MAP

/-- Element::getStringIdx (asserts KEY/VALUE/COMMENT in C). -/
def getStringIdx : Element → Nat
  | .key i _ _ _ => i
  | .value i _ _ => i
  | .comment i _ _ _ => i
  | _ => 0

/-- Element::getStringSize (the compound field). -/
def getStringSize : Element → Nat
  | .key _ n _ _ => n
  | .value _ n _ => n
  | .comment _ n _ _ => n
  | _ => 0

/-- Element::getSubQty. -/
def getSubQty : Element → Nat
  | .key _ _ e _ => if e = 0 then 0 else 1
  | .sequence subs => subs.length
  | .map subs => subs.length
  | _ => 0

/-- Element::getSub(idx). -/
def getSub (e : Element) (idx : Nat) : Nat :=
  match e with
  | .sequence subs => subs.getD idx 0
  | .map subs => subs.getD idx 0
  | _ => 0

/-- Element::getKeyValue (asserts KEY). -/
def getKeyValue : Element → Nat
  | .key _ _ e _ => e
  | _ => 0

/-- Element::add: keys record the child index, containers append. -/
def add (e : Element) (eltIdx : Nat) : Element :=
  match e with
  | .key i n _ c => .key i n eltIdx c
  | .sequence subs => .sequence (subs ++ [eltIdx])
  | .map subs => .map (subs ++ [eltIdx])
  | x => x

/-- Element::insert(idx, eltIdx) for containers. -/
def insertSub (e : Element) (idx eltIdx : Nat) : Element :=
  match e with
  | .sequence subs => .sequence (subs.take idx ++ [eltIdx] ++ subs.drop idx)
  | .map subs => .map (subs.take idx ++ [eltIdx] ++ subs.drop idx)
  | x => x

/-- Element::erase(idx) for containers. -/
def eraseSub (e : Element) (idx : Nat) : Element :=
  match e with
  | .sequence subs => .sequence (subs.take idx ++ subs.drop (idx + 1))
  | .map subs => .map (subs.take idx ++ subs.drop (idx + 1))
  | x => x

/-- Element::replace(idx, newEltIdx) for containers. -/
def replaceSub (e : Element) (idx newEltIdx : Nat) : Element :=
  match e with
  | .sequence subs => .sequence (subs.set idx newEltIdx)
  | .map subs => .map (subs.set idx newEltIdx)
  | x => x

/-- Element::reset(kind): discard type-specific state. -/
def reset (_e : Element) (kind : NodeType) : Element :=
  match kind with
  | UNKNOWN => .unknown
  | KEY => .key 0 0 0 0
  | VALUE => .value 0 0 0
  | COMMENT => .comment 0 0 false 0
  | SEQUENCE => .sequence []
  | MAP => .map []

/-- Element::setString (KEY or VALUE). -/
def setString (e : Element) (stringIdx stringSize : Nat) : Element :=
  match e with
  | .key _ _ s c => .key stringIdx stringSize s c
  | .value _ _ c => .value stringIdx stringSize c
  | x => x

/-- Element::setComment(eltIdx): attach a piggybacked comment. -/
def setComment (e : Element) (eltIdx : Nat) : Element :=
  match e with
  | .comment i n s _ => .comment i n s eltIdx
  | .key i n e' _ => .key i n e' eltIdx
  | .value i n _ => .value i n eltIdx
  | .map subs => .map (subs ++ [eltIdx])
  | .sequence subs => .sequence (subs ++ [eltIdx])
  | x => x

/-- Element::getNextCommentIndex. -/
def getNextCommentIndex : Element → Nat
  | .comment _ _ _ c => c
  | .key _ _ _ c => c
  | .value _ _ c => c
  | _ => 0

/-- Element::isStandalone (asserts COMMENT). -/
def isStandalone : Element → Bool
  | .comment _ _ s _ => s
  | _ => false

end Element

/-! ## wyhash (as embedded in styml.h, seed 0) -/

/-- 2^64, the modulus of the 64-bit arithmetic in wyhash. -/
def M64 : Nat := 2 ^ 64

/-- _wymix: full 64x64→128 multiply, xor of the two halves. -/
def wymix (a b : Nat) : Nat :=
  let r := a * b
  Nat.xor (r % M64) (r / M64 % M64)

/-- _wyr8: little-endian 8-byte read at offset i (bytes beyond the end
read as 0, standing for the NUL-terminated backing buffer). -/
def wyr8 (p : List Nat) (i : Nat) : Nat :=
  (List.range 8).foldr (fun k acc => acc * 256 + p.getD (i + k) 0) 0

/-- _wyr4: little-endian 4-byte read at offset i. -/
def wyr4 (p : List Nat) (i : Nat) : Nat :=
  (List.range 4).foldr (fun k acc => acc * 256 + p.getD (i + k) 0) 0

/-- _wyr3: the short-read used for lengths 1..3. -/
def wyr3 (p : List Nat) (k : Nat) : Nat :=
  (p.getD 0 0) * 2 ^ 16 + (p.getD (k / 2) 0) * 2 ^ 8 + p.getD (k - 1) 0

/-- wyhash secret0. -/
def secret0 : Nat := 0x2d358dccaa6c78a5

/-- wyhash secret1. -/
def secret1 : Nat := 0x8bb84b93962eacc9

/-- wyhash secret2. -/
def secret2 : Nat := 0x4b33a62ed433d4a3

/-- wyhash secret3. -/
def secret3 : Nat := 0x4d5a2da51de1aa47

/-- The 48-byte-block do/while loop of wyhash for long inputs.  `off` is
the current read offset, `i` the remaining length. -/
def wyLoop48F (p : List Nat) : Nat → Nat → Nat → Nat → Nat → Nat → Nat × Nat
  | 0, off, _, seed, see1, see2 => (off, Nat.xor (Nat.xor seed see1) see2)
  | fuel + 1, off, i, seed, see1, see2 =>
    if 48 ≤ i then
      let seed' := wymix (Nat.xor (wyr8 p off) secret1) (Nat.xor (wyr8 p (off + 8)) seed)
      let see1' := wymix (Nat.xor (wyr8 p (off + 16)) secret2) (Nat.xor (wyr8 p (off + 24)) see1)
      let see2' := wymix (Nat.xor (wyr8 p (off + 32)) secret3) (Nat.xor (wyr8 p (off + 40)) see2)
      if 48 ≤ i - 48 then wyLoop48F p fuel (off + 48) (i - 48) seed' see1' see2'
      else (off + 48, Nat.xor (Nat.xor seed' see1') see2')
    else (off, Nat.xor (Nat.xor seed see1) see2)

/-- The 48-byte do/while loop entry (fuel dominates i/48). -/
def wyLoop48 (p : List Nat) (off i seed see1 see2 : Nat) : Nat × Nat :=
  wyLoop48F p (i / 48 + 1) off i seed see1 see2

/-- The 16-byte-block while loop of wyhash. -/
def wyLoop16F (p : List Nat) : Nat → Nat → Nat → Nat → Nat × Nat × Nat
  | 0, off, i, seed => (off, i, seed)
  | fuel + 1, off, i, seed =>
    if 16 < i then
      wyLoop16F p fuel (off + 16) (i - 16)
        (wymix (Nat.xor (wyr8 p off) secret1) (Nat.xor (wyr8 p (off + 8)) seed))
    else (off, i, seed)

/-- The 16-byte while loop entry (fuel dominates i/16). -/
def wyLoop16 (p : List Nat) (off i seed : Nat) : Nat × Nat × Nat :=
  wyLoop16F p (i / 16 + 1) off i seed

/-- wyhash(key, len) with the fixed zero seed styml uses. -/
def wyhash (p : List Nat) : Nat :=
  let len := p.length
  let seed := 0xca813bf4c7abf0a9
  let ab : Nat × Nat × Nat :=
    if len ≤ 16 then
      if 4 ≤ len then
        ((wyr4 p 0) * 2 ^ 32 + wyr4 p ((len / 8) * 4),
         (wyr4 p (len - 4)) * 2 ^ 32 + wyr4 p (len - 4 - (len / 8) * 4), seed)
      else if 0 < len then (wyr3 p len, 0, seed)
      else (0, 0, seed)
    else
      let st :=
        if 48 ≤ len then wyLoop48 p 0 len seed seed seed
        else (0, seed)
      match st with
      | (off1, seed1) =>
        match wyLoop16 p off1 (len - off1) seed1 with
        | (off2, i2, seed2) => (wyr8 p (off2 + i2 - 16), wyr8 p (off2 + i2 - 8), seed2)
  match ab with
  | (a0, b0, seedF) =>
    let a1 := Nat.xor a0 secret1
    let b1 := Nat.xor b0 seedF
    let r := a1 * b1
    let a2 := r % M64
    let b2 := r / M64 % M64
    wymix (Nat.xor (Nat.xor a2 secret0) p.length) (Nat.xor b2 secret1)

/-- Bytes of a key (chars as bytes; ASCII on all concrete inputs). -/
def strBytes (s : List Char) : List Nat := s.map (fun c => c.toNat % 256)

/-! ## The document context: element store, arena, map child index -/

/-- One slot of the map child index (Context::Entry). -/
structure Entry where
  hash : Nat
  childIndex : Nat
deriving DecidableEq, Repr

/-- An all-zero (empty) slot. -/
def zeroEntry : Entry := ⟨0, 0⟩

/-- UINT_MAX, the not-found sentinel. -/
def UINT_MAX : Nat := 2 ^ 32 - 1

/-- The internal context of a document (C++ detail::Context).  The
table capacity `_maxEntryQty` is `entries.length`. -/
structure Ctx where
  elements : List Element
  arena : List Char
  entries : List Entry
  entryQty : Nat
  sessionStartIdx : Nat
deriving DecidableEq, Repr

/-- Context::Context(): empty stores, table of InitMapSize = 16 zeroed
slots. -/
def Ctx.init : Ctx :=
  { elements := [], arena := [], entries := List.replicate 16 zeroEntry,
    entryQty := 0, sessionStartIdx := 0 }

/-- Shorthand for reading an element record. -/
def Ctx.elt (ctx : Ctx) (i : Nat) : Element := ctx.elements.getD i .unknown

/-- Context::addString: append the bytes plus a trailing NUL, returning
(stringIdx, stringSize). -/
def Ctx.addString (ctx : Ctx) (text : List Char) : Ctx × Nat × Nat :=
  ({ ctx with arena := ctx.arena ++ text ++ [nulChar] }, ctx.arena.length, text.length + 1)

/-- Context::startStringSession. -/
def Ctx.startStringSession (ctx : Ctx) : Ctx :=
  { ctx with sessionStartIdx := ctx.arena.length }

/-- Context::addToSession. -/
def Ctx.addToSession (ctx : Ctx) (text : List Char) : Ctx :=
  { ctx with arena := ctx.arena ++ text }

/-- Context::commitSession: write the single trailing NUL, return
(stringIdx, stringSize). -/
def Ctx.commitSession (ctx : Ctx) : Ctx × Nat × Nat :=
  ({ ctx with arena := ctx.arena ++ [nulChar] }, ctx.sessionStartIdx,
   ctx.arena.length + 1 - ctx.sessionStartIdx)

/-- Context::getString (a pointer into the arena; length supplied by
callers).  Modelled as the arena suffix. -/
def Ctx.getString (ctx : Ctx) (stringIdx : Nat) : List Char := ctx.arena.drop stringIdx

/-- A stored string of known size without its NUL, as the index
operations read it through getString. -/
def arenaStr (ctx : Ctx) (stringIdx size : Nat) : List Char :=
  (ctx.arena.drop stringIdx).take size

/-- The clamped 32-bit hash of (parent element index, key bytes):
parentEltIdx XOR (uint32)wyhash(key), moved above the Empty/Tombstone
reserved values. -/
def keyHashOf (parentEltIdx : Nat) (key : List Char) : Nat :=
  let h := Nat.xor (parentEltIdx % 2 ^ 32) (wyhash (strBytes key) % 2 ^ 32)
  if h < 2 then h + 2 else h

/-- The bucket mask: (maxEntryQty - 1) & ~(KeyDirAssocQty - 1) in
uint32. -/
def maskOf (maxEntryQty : Nat) : Nat := (maxEntryQty - 1) &&& (2 ^ 32 - 8)

/-- The full match test an index probe applies to one slot: stored hash
equal, childIndex in range, and the child at that position a KEY whose
stored name equals the queried key (strncmp over keySize bytes with the
stored size check). -/
def entryMatches (ctx : Ctx) (keyHash : Nat) (key : List Char) (parentElt : Element)
    (e : Entry) : Bool :=
  e.hash == keyHash && decide (e.childIndex < parentElt.getSubQty) &&
    (let childElt := ctx.elt (parentElt.getSub e.childIndex)
     childElt.getType == KEY && childElt.getStringSize == key.length + 1 &&
     strncmpEq (ctx.getString childElt.getStringIdx) key key.length)

/-- Result of scanning one 8-slot cache line. -/
inductive BucketScan where
  | found (childIndex cellId : Nat)
  | vacant (cellId : Nat)
  | full
deriving DecidableEq, Repr

/-- The inner for-loop over a cache line: slots whose hash is below
`thr` stop the scan (vacant), matching slots are found, others are
skipped; after 8 slots the line is full. -/
def scanLine (entries : List Entry) (thr : Nat) (isMatch : Entry → Bool) (idx : Nat) :
    Nat → Nat → BucketScan
  | _, 0 => .full
  | cellId, rem + 1 =>
    let e := entries.getD (idx + cellId) zeroEntry
    if e.hash < thr then .vacant cellId
    else if isMatch e then .found e.childIndex cellId
    else scanLine entries thr isMatch idx (cellId + 1) rem

/-- The outer while(true) probe loop: scan the line at `idx`; when full,
step by probeIncr*8 (masked) and increment probeIncr.  `none` models a
scan that never reaches a vacant or matching slot within fuel. -/
def probe (entries : List Entry) (thr : Nat) (isMatch : Entry → Bool) (mask : Nat) :
    Nat → Nat → Nat → Option (BucketScan × Nat)
  | 0, _, _ => none
  | fuel + 1, idx, probeIncr =>
    match scanLine entries thr isMatch idx 0 8 with
    | .full => probe entries thr isMatch mask fuel ((idx + probeIncr * 8) &&& mask) (probeIncr + 1)
    | r => some (r, idx)

/-- Fuel that lets a probe visit every bucket of the table. -/
def probeFuel (entries : List Entry) : Nat := 2 * entries.length + 16

/-- Context::getMapChildIndex: probe (threshold Tombstone, so tombstones
are skipped as occupied); `some (some ci)` = found child position,
`some none` = UINT_MAX (absent), `none` = fuel artifact. -/
def Ctx.getMapChildIndex (ctx : Ctx) (parentEltIdx : Nat) (key : List Char)
    (parentElt : Element) : Option (Option Nat) :=
  let keyHash := keyHashOf parentEltIdx key
  let mask := maskOf ctx.entries.length
  match probe ctx.entries 1 (entryMatches ctx keyHash key parentElt) mask
      (probeFuel ctx.entries) (keyHash &&& mask) 1 with
  | none => none
  | some (.found ci _, _) => some (some ci)
  | some _ => some none

/-- Context::resize: move every live entry (hash ≥ FirstValid) of the
old table, in slot order, to the first empty slot of its probe sequence
in a zeroed table of the new size. -/
def Ctx.resize (ctx : Ctx) (newMaxSize : Nat) : Option Ctx :=
  let newMask := maskOf newMaxSize
  let res := ctx.entries.foldl (fun acc e =>
      match acc with
      | none => none
      | some arr =>
        if e.hash < 2 then some arr
        else
          match probe arr 2 (fun _ => false) newMask (2 * newMaxSize + 16)
              (e.hash &&& newMask) 1 with
          | some (.vacant cellId, idx) => some (arr.set (idx + cellId) e)
          | _ => none) (some (List.replicate newMaxSize zeroEntry))
  res.map (fun arr => { ctx with entries := arr })

/-- Context::addMapChildIndex: probe with threshold FirstValid (so the
scan stops at tombstones as well as empties); a match overwrites
childIndex and reports false; otherwise the entry goes into the vacant
slot, and the table doubles when 128*entryQty exceeds 115*capacity. -/
def Ctx.addMapChildIndex (ctx : Ctx) (parentEltIdx : Nat) (key : List Char)
    (parentElt : Element) (childIndex : Nat) : Option (Bool × Ctx) :=
  let keyHash := keyHashOf parentEltIdx key
  let mask := maskOf ctx.entries.length
  match probe ctx.entries 2 (entryMatches ctx keyHash key parentElt) mask
      (probeFuel ctx.entries) (keyHash &&& mask) 1 with
  | none => none
  | some (.found _ cellId, idx) =>
    let e := ctx.entries.getD (idx + cellId) zeroEntry
    some (false, { ctx with entries := ctx.entries.set (idx + cellId) { e with childIndex := childIndex } })
  | some (.vacant cellId, idx) =>
    let ctx1 := { ctx with entries := ctx.entries.set (idx + cellId) ⟨keyHash, childIndex⟩,
                           entryQty := ctx.entryQty + 1 }
    if 128 * ctx1.entryQty > 115 * ctx1.entries.length then
      (ctx1.resize (2 * ctx1.entries.length)).map (fun c => (true, c))
    else some (true, ctx1)
  | some (.full, _) => none

/-- Context::removeMapChildIndex: probe as in find; a match is replaced
by the tombstone (hash 1, childIndex UINT_MAX) and its old position
returned; absence returns UINT_MAX (the C assert is release no-op). -/
def Ctx.removeMapChildIndex (ctx : Ctx) (parentEltIdx : Nat) (key : List Char)
    (parentElt : Element) : Option (Option Nat × Ctx) :=
  let keyHash := keyHashOf parentEltIdx key
  let mask := maskOf ctx.entries.length
  match probe ctx.entries 1 (entryMatches ctx keyHash key parentElt) mask
      (probeFuel ctx.entries) (keyHash &&& mask) 1 with
  | none => none
  | some (.found ci cellId, idx) =>
    some (some ci, { ctx with entries := ctx.entries.set (idx + cellId) ⟨1, UINT_MAX⟩ })
  | some _ => some (none, ctx)

/-! ## The public Node API -/

/-- A Node handle: an element index plus the pending-key name (C++
Node::_nonExistingKey; the context reference is passed explicitly). -/
structure NodeRef where
  eltIdx : Nat
  nonExistingKey : List Char
deriving DecidableEq, Repr

/-- Placeholder for fuel exhaustion of the unbounded C probe loop (never
hit on the states considered here). -/
def probeFuelMsg : String := "model artifact: probe fuel exhausted"

/-- Node::operator bool(): a valid index whose element is not a map
carrying a pending key. -/
def nodeBool (ctx : Ctx) (n : NodeRef) : Bool :=
  decide (n.eltIdx < ctx.elements.length) &&
    ((ctx.elt n.eltIdx).getType != MAP || n.nonExistingKey.isEmpty)

/-- The AccessException message of Node::as⟨T⟩() on a pending-key
handle (T mangled as std::string under the byte-string codec). -/
def castMissMsg (k : List Char) : String :=
  "Access error: unable to cast this node into (mangle) type " ++ sq
    ++ "std::string" ++ sq ++ "  as the key " ++ sq ++ String.mk k ++ sq
    ++ " does not exist"

/-- Node::as⟨std::string⟩(): no default; a pending key or a non-value
node is an access error; UNKNOWN decodes the empty string. -/
def nodeAsString (ctx : Ctx) (n : NodeRef) : Except String (List Char) :=
  let elt := ctx.elt n.eltIdx
  if elt.getType == MAP && !n.nonExistingKey.isEmpty then
    .error (castMissMsg n.nonExistingKey)
  else if elt.getType != VALUE && elt.getType != UNKNOWN then
    .error "Access error: unable to cast this node as it is not of type Value"
  else
    .ok (if elt.getType == VALUE then cString ctx.arena elt.getStringIdx else [])

/-- Node::as⟨std::string⟩(default): identical except that a pending key
yields the default. -/
def nodeAsStringD (ctx : Ctx) (n : NodeRef) (dflt : List Char) : Except String (List Char) :=
  let elt := ctx.elt n.eltIdx
  if elt.getType == MAP && !n.nonExistingKey.isEmpty then .ok dflt
  else if elt.getType != VALUE && elt.getType != UNKNOWN then
    .error "Access error: unable to cast this node as it is not of type Value"
  else
    .ok (if elt.getType == VALUE then cString ctx.arena elt.getStringIdx else [])

/-- Node::operator[](key) for maps: an existing key yields the node of
its value; a missing key yields the pending-key handle. -/
def nodeIndexKey (ctx : Ctx) (n : NodeRef) (key : List Char) : Except String NodeRef :=
  let elt := ctx.elt n.eltIdx
  if elt.getType != MAP then
    .error ("Access error: Access by [" ++ String.mk key
      ++ "] can only be used on MAP elements")
  else if key.isEmpty then
    .error "Access error: empty key is not allowed to access a MAP element"
  else if !n.nonExistingKey.isEmpty then
    .error ("Access error: " ++ sq ++ String.mk n.nonExistingKey ++ sq
      ++ " is a non-existent key in this MAP elements" ++ sq)
  else
    match ctx.getMapChildIndex n.eltIdx key elt with
    | none => .error probeFuelMsg
    | some none => .ok ⟨n.eltIdx, key⟩
    | some (some childIndex) =>
      .ok ⟨(ctx.elt (elt.getSub childIndex)).getKeyValue, []⟩

/-- Node::hasKey(key). -/
def nodeHasKey (ctx : Ctx) (n : NodeRef) (key : List Char) : Except String Bool :=
  let elt := ctx.elt n.eltIdx
  if elt.getType != MAP then
    .error "Access error: hasKey can only be used on MAP elements"
  else if key.isEmpty then
    .error "Access error: empty key is not allowed to access a MAP element"
  else
    match ctx.getMapChildIndex n.eltIdx key elt with
    | none => .error probeFuelMsg
    | some r => .ok r.isSome

/-- Node::operator=(T) with the byte-string codec (encode is the
identity): rewrite a VALUE in place, materialize a pending key as a new
KEY/VALUE pair plus an index insertion, or turn the node into a
VALUE. -/
def nodeAssignString (ctx : Ctx) (n : NodeRef) (v : List Char) :
    Except String (Ctx × NodeRef) :=
  let elt := ctx.elt n.eltIdx
  if elt.getType == VALUE then
    match ctx.addString v with
    | (ctx1, si, ss) =>
      .ok ({ ctx1 with elements := ctx1.elements.set n.eltIdx (elt.setString si ss) }, n)
  else if !n.nonExistingKey.isEmpty then
    match ctx.getMapChildIndex n.eltIdx n.nonExistingKey elt with
    | none => .error probeFuelMsg
    | some (some _) =>
      .error ("Access error: duplicated key are forbidden and the key " ++ sq
        ++ String.mk n.nonExistingKey ++ sq ++ " is already present")
    | some none =>
      match ctx.addString v with
      | (ctx1, si1, ss1) =>
        let eltIdx := ctx1.elements.length
        let ctx2 := { ctx1 with elements := ctx1.elements ++ [Element.value si1 ss1 0] }
        match ctx2.addString n.nonExistingKey with
        | (ctx3, si2, ss2) =>
          let ctx4 := { ctx3 with elements := ctx3.elements ++ [Element.key si2 ss2 eltIdx 0] }
          let parent1 := (ctx4.elt n.eltIdx).add (eltIdx + 1)
          let ctx5 := { ctx4 with elements := ctx4.elements.set n.eltIdx parent1 }
          match ctx5.addMapChildIndex n.eltIdx n.nonExistingKey parent1
              (parent1.getSubQty - 1) with
          | none => .error probeFuelMsg
          | some (_, ctx6) => .ok (ctx6, ⟨n.eltIdx, []⟩)
  else
    match ctx.addString v with
    | (ctx1, si, ss) =>
      .ok ({ ctx1 with
              elements := ctx1.elements.set n.eltIdx ((elt.reset VALUE).setString si ss) }, n)

/-- Node::operator=(NodeType): only MAP and SEQUENCE; materializes a
pending key, else resets the node in place. -/
def nodeAssignKind (ctx : Ctx) (n : NodeRef) (kind : NodeType) :
    Except String (Ctx × NodeRef) :=
  if kind != MAP && kind != SEQUENCE then
    .error "Access error: only the structural elements MAP and SEQUENCE can be created"
  else
    let elt := ctx.elt n.eltIdx
    if elt.getType == MAP && !n.nonExistingKey.isEmpty then
      match ctx.getMapChildIndex n.eltIdx n.nonExistingKey elt with
      | none => .error probeFuelMsg
      | some (some _) =>
        .error ("Access error: the key " ++ sq ++ String.mk n.nonExistingKey ++ sq
          ++ " has already been added in the map")
      | some none =>
        let eltIdx := ctx.elements.length
        let ctx1 := { ctx with elements := ctx.elements ++ [Element.unknown.reset kind] }
        match ctx1.addString n.nonExistingKey with
        | (ctx2, si, ss) =>
          let ctx3 := { ctx2 with elements := ctx2.elements ++ [Element.key si ss eltIdx 0] }
          let parent1 := (ctx3.elt n.eltIdx).add (eltIdx + 1)
          let ctx4 := { ctx3 with elements := ctx3.elements.set n.eltIdx parent1 }
          match ctx4.addMapChildIndex n.eltIdx n.nonExistingKey parent1
              (parent1.getSubQty - 1) with
          | none => .error probeFuelMsg
          | some (_, ctx5) => .ok (ctx5, ⟨n.eltIdx, []⟩)
    else
      .ok ({ ctx with elements := ctx.elements.set n.eltIdx (elt.reset kind) }, n)

/-- Node::insert(key, T) with the byte-string codec: duplicate keys are
an access error; otherwise append the VALUE and KEY elements, link the
key under the map, and index it. -/
def nodeInsertValue (ctx : Ctx) (n : NodeRef) (key v : List Char) :
    Except String Ctx :=
  let elt := ctx.elt n.eltIdx
  if elt.getType != MAP then
    .error "Access error: Access by [] can only be used on MAP elements"
  else if key.isEmpty then
    .error "Access error: empty key is not allowed to access a MAP element"
  else if !n.nonExistingKey.isEmpty then
    .error ("Access error: " ++ sq ++ String.mk n.nonExistingKey ++ sq
      ++ " is a non-existent key in this MAP elements" ++ sq)
  else
    match ctx.getMapChildIndex n.eltIdx key elt with
    | none => .error probeFuelMsg
    | some (some _) =>
      .error ("Access error: duplicated key are forbidden and the key " ++ sq
        ++ String.mk key ++ sq ++ " is already present")
    | some none =>
      match ctx.addString v with
      | (ctx1, si1, ss1) =>
        let eltIdx := ctx1.elements.length
        let ctx2 := { ctx1 with elements := ctx1.elements ++ [Element.value si1 ss1 0] }
        match ctx2.addString key with
        | (ctx3, si2, ss2) =>
          let ctx4 := { ctx3 with elements := ctx3.elements ++ [Element.key si2 ss2 eltIdx 0] }
          let parent1 := (ctx4.elt n.eltIdx).add (eltIdx + 1)
          let ctx5 := { ctx4 with elements := ctx4.elements.set n.eltIdx parent1 }
          match ctx5.addMapChildIndex n.eltIdx key parent1 (parent1.getSubQty - 1) with
          | none => .error probeFuelMsg
          | some (_, ctx6) => .ok ctx6

/-- Node::remove(key) for maps: un-index the key; when it was not at
the last position, also un-index the last key, swap it into the freed
position, re-index it there, and pop the child list. -/
def nodeRemoveKey (ctx : Ctx) (n : NodeRef) (key : List Char) :
    Except String (Bool × Ctx) :=
  let elt := ctx.elt n.eltIdx
  if elt.getType != MAP then
    .error "Access error: remove can only be used on MAP elements"
  else
    match ctx.removeMapChildIndex n.eltIdx key elt with
    | none => .error probeFuelMsg
    | some (none, ctx1) => .ok (false, ctx1)
    | some (some childIndex, ctx1) =>
      if childIndex < elt.getSubQty - 1 then
        let lastElt := ctx1.elt (elt.getSub (elt.getSubQty - 1))
        let lastKey := arenaStr ctx1 lastElt.getStringIdx (lastElt.getStringSize - 1)
        match ctx1.removeMapChildIndex n.eltIdx lastKey elt with
        | none => .error probeFuelMsg
        | some (_, ctx2) =>
          let parent1 := elt.replaceSub childIndex (elt.getSub (elt.getSubQty - 1))
          let ctx3 := { ctx2 with elements := ctx2.elements.set n.eltIdx parent1 }
          match ctx3.addMapChildIndex n.eltIdx lastKey parent1 childIndex with
          | none => .error probeFuelMsg
          | some (_, ctx4) =>
            let parent2 := (ctx4.elt n.eltIdx).eraseSub ((ctx4.elt n.eltIdx).getSubQty - 1)
            .ok (true, { ctx4 with elements := ctx4.elements.set n.eltIdx parent2 })
      else
        let parent1 := elt.eraseSub (elt.getSubQty - 1)
        .ok (true, { ctx1 with elements := ctx1.elements.set n.eltIdx parent1 })

/-- Document::Document(): a context whose element 0 is the root KEY with
the empty name. -/
def docInit : Ctx :=
  let ctx := Ctx.init
  match ctx.addString [] with
  | (ctx1, si, ss) => { ctx1 with elements := [Element.key si ss 0 0] }

/-! ## StringHelper -/

/-- StringHelper::LineChunk. -/
structure LineChunk where
  startIdx : Nat
  size : Nat
deriving DecidableEq, Repr

/-- The per-scalar scratch (StringHelper): a local arena plus the chunk
list, one chunk per assembled line. -/
structure SH where
  arena : List Char
  chunks : List LineChunk
  startLineIdx : Nat
deriving DecidableEq, Repr

/-- A freshly startSession()-ed helper. -/
def SH.start : SH := ⟨[], [], 0⟩

/-- StringHelper::addLine: append the text and record it as a chunk. -/
def SH.addLine (sh : SH) (text : List Char) : SH :=
  { arena := sh.arena ++ text,
    chunks := sh.chunks ++ [⟨sh.arena.length, text.length⟩],
    startLineIdx := sh.arena.length + text.length }

/-- StringHelper::addChar. -/
def SH.addChar (sh : SH) (c : Char) : SH := { sh with arena := sh.arena ++ [c] }

/-- StringHelper::addChunk. -/
def SH.addChunk (sh : SH) (text : List Char) : SH := { sh with arena := sh.arena ++ text }

/-- StringHelper::addChunkNoTrail: append the text with its trailing
spaces and tabs stripped. -/
def SH.addChunkNoTrail (sh : SH) (text : List Char) : SH :=
  { sh with arena := sh.arena ++ (text.reverse.dropWhile (fun c => c == ' ' || c == '\t')).reverse }

/-- StringHelper::endLine: close the open chunk. -/
def SH.endLine (sh : SH) : SH :=
  { sh with chunks := sh.chunks ++ [⟨sh.startLineIdx, sh.arena.length - sh.startLineIdx⟩],
            startLineIdx := sh.arena.length }

/-- StringHelper::empty. -/
def SH.empty (sh : SH) : Bool := sh.chunks.isEmpty

/-- sh.arena.back(): the last scratch byte (NUL default stands for the
C undefined-behaviour read on an empty vector, never hit here). -/
def SH.back (sh : SH) : Char := charAt sh.arena (sh.arena.length - 1)

/-- The bytes [startIdx, startIdx + size) of one chunk. -/
def chunkSlice (arena : List Char) (lc : LineChunk) : List Char :=
  (arena.drop lc.startIdx).take lc.size

/-- One chunk is blank when its bytes are all in " \t\r\n"
(findFirstNotOf over the chunk range returns UINT_MAX). -/
def chunkIsBlank (arena : List Char) (lc : LineChunk) : Bool :=
  (chunkSlice arena lc).all
    (fun c => c == ' ' || c == '\t' || c == '\r' || c == '\n')

/-- StringHelper::removeTrailingLines: pop trailing blank chunks. -/
def SH.removeTrailingLines (sh : SH) : SH :=
  { sh with chunks := (sh.chunks.reverse.dropWhile (fun lc => chunkIsBlank sh.arena lc)).reverse }

/-! ## Tokenizer (detail::getToken) -/

/-- detail::TokenType. -/
inductive TokenType where
  | Key | StringValue | Newline | Caret | Comment | Eos
deriving DecidableEq, Repr

/-- The returned token (detail::TokenParser; isValid is always true on
return). -/
structure Tok where
  type : TokenType
  startColNbr : Nat
  stringIdx : Nat
  stringSize : Nat
deriving DecidableEq, Repr

/-- A ParseException: the formatted main message and the line number
that throwParsing would print in the footer. -/
structure PErr where
  lineNbr : Nat
  msg : String
deriving DecidableEq, Repr

/-- Substring [a, b) of the buffer. -/
def slice (text : List Char) (a b : Nat) : List Char := (text.drop a).take (b - a)

/-- Bounded scan: the first position at or after i (and before endIdx)
whose byte fails p, as the C `while (idx < endIdx && p(text[idx]))`. -/
def skipWhile2F (text : List Char) (endIdx : Nat) (p : Char → Bool) : Nat → Nat → Nat
  | 0, i => i
  | fuel + 1, i =>
    if i < endIdx then
      if p (charAt text i) then skipWhile2F text endIdx p fuel (i + 1) else i
    else i

/-- Entry with fuel covering the whole scan range. -/
def skipWhile2 (text : List Char) (endIdx : Nat) (p : Char → Bool) (i : Nat) : Nat :=
  skipWhile2F text endIdx p (endIdx + 1) i

/-- Unbounded `while (text[i] == ' ' ...)` skips, which in C run into
the NUL after the buffer; fuel dominates the buffer length. -/
def skipWhileU (text : List Char) (p : Char → Bool) : Nat → Nat → Nat
  | 0, i => i
  | fuel + 1, i => if p (charAt text i) then skipWhileU text p fuel (i + 1) else i

/-- First end-of-line position at or after i. -/
def scanToEol (text : List Char) (endIdx i : Nat) : Nat :=
  skipWhile2 text endIdx (fun c => c != '\n' && c != '\r') i

/-- The tabulation-in-indentation parse error message. -/
def tabMsg : String := "Parse error: using tabulation is not accepted for indentation"

/-- The per-line output of one scalar-line handler: the updated scratch,
the end-of-line cursor, the end-of-scalar flag, and the folded-line
marker. -/
structure LineOut where
  sh : SH
  lineEndIdx : Nat
  isEnd : Bool
  iFL : Bool
deriving Repr

/-- Inner character loop of the single-quote case: scans for the
terminating quote, turning doubled quotes into one literal quote.
Returns (sh, isFirstAdd, chunkStartIdx, lineEndIdx, endReached). -/
def sqScan (text : List Char) (endIdx : Nat) :
    Nat → SH → Bool → Nat → Nat → SH × Bool × Nat × Nat × Bool
  | 0, sh, fa, cs, le => (sh, fa, cs, le, false)
  | fuel + 1, sh, isFirstAdd, chunkStartIdx, lineEndIdx =>
    if lineEndIdx < endIdx && charAt text lineEndIdx != '\n' && charAt text lineEndIdx != '\r' then
      if charAt text lineEndIdx != squote then
        sqScan text endIdx fuel sh isFirstAdd chunkStartIdx (lineEndIdx + 1)
      else if lineEndIdx + 1 < endIdx && charAt text (lineEndIdx + 1) == squote then
        let p := if isFirstAdd then
            ((if sh.back != '\n' then sh.addChar ' ' else sh), false)
          else (sh, isFirstAdd)
        let sh2 := p.1.addChunk (slice text chunkStartIdx (lineEndIdx + 1))
        sqScan text endIdx fuel sh2 p.2 (lineEndIdx + 2) (lineEndIdx + 2)
      else (sh, isFirstAdd, chunkStartIdx, lineEndIdx, true)
    else (sh, isFirstAdd, chunkStartIdx, lineEndIdx, false)

/-- The single-quote case of one line: scan, flush the pending chunk,
handle the closing quote (skipping trailing blanks), or record a blank
continuation line. -/
def sqLine (text : List Char) (endIdx skFuel lineNbr : Nat) (sh0 : SH) (nonSpaceIdx : Nat) :
    Except PErr (SH × Nat × Bool) :=
  let isFirstAdd := !sh0.empty
  match sqScan text endIdx (endIdx + skFuel + 16) sh0 isFirstAdd nonSpaceIdx nonSpaceIdx with
  | (sh1, fa1, cs1, le1, _) =>
    let sh2 := if fa1 && sh1.back != '\n' then sh1.addChar ' ' else sh1
    let sh3 := if le1 > cs1 then sh2.addChunk (slice text cs1 le1) else sh2
    if le1 ≥ endIdx then .error ⟨lineNbr, "Parse error: unfinished single-quote string"⟩
    else if charAt text le1 == squote then
      .ok (sh3, skipWhileU text (fun c => c == ' ' || c == '\t') skFuel (le1 + 1), true)
    else
      .ok ((if nonSpaceIdx == le1 then sh3.addLine [Char.ofNat 10] else sh3), le1, false)

/-- Inner character loop of the double-quote case: backslash escapes,
including the end-of-line continuation that joins lines. -/
def dqScan (text : List Char) (endIdx skFuel : Nat) :
    Nat → SH → Bool → Nat → Nat → SH × Bool × Nat × Nat
  | 0, sh, fa, cs, le => (sh, fa, cs, le)
  | fuel + 1, sh, isFirstAdd, chunkStartIdx, lineEndIdx =>
    if lineEndIdx < endIdx && charAt text lineEndIdx != '\n' && charAt text lineEndIdx != '\r'
        && charAt text lineEndIdx != '"' then
      if charAt text lineEndIdx != '\\' then
        dqScan text endIdx skFuel fuel sh isFirstAdd chunkStartIdx (lineEndIdx + 1)
      else
        let p := if isFirstAdd && sh.back != '\n' then (sh.addChar ' ', false) else (sh, isFirstAdd)
        let sh2 := if lineEndIdx > chunkStartIdx then p.1.addChunk (slice text chunkStartIdx lineEndIdx) else p.1
        let le1 := lineEndIdx + 1
        if le1 < endIdx then
          let c := charAt text le1
          if c == 'n' then dqScan text endIdx skFuel fuel (sh2.addChar '\n') p.2 (le1 + 1) (le1 + 1)
          else if c == 'r' then dqScan text endIdx skFuel fuel (sh2.addChar '\r') p.2 (le1 + 1) (le1 + 1)
          else if c == 't' then dqScan text endIdx skFuel fuel (sh2.addChar '\t') p.2 (le1 + 1) (le1 + 1)
          else if c == '"' then dqScan text endIdx skFuel fuel (sh2.addChar '"') p.2 (le1 + 1) (le1 + 1)
          else if c == '\\' then dqScan text endIdx skFuel fuel (sh2.addChar '\\') p.2 (le1 + 1) (le1 + 1)
          else if c == '\r' || c == '\n' then
            let le2 := if charAt text le1 == '\r' then le1 + 1 else le1
            let le3 := if charAt text le2 == '\n' then le2 + 1 else le2
            let le4 := skipWhileU text (fun c => c == ' ') skFuel le3
            dqScan text endIdx skFuel fuel sh2 p.2 le4 le4
          else dqScan text endIdx skFuel fuel ((sh2.addChar '\\').addChar c) p.2 (le1 + 1) (le1 + 1)
        else dqScan text endIdx skFuel fuel sh2 p.2 le1 le1
    else (sh, isFirstAdd, chunkStartIdx, lineEndIdx)

/-- The double-quote case of one line. -/
def dqLine (text : List Char) (endIdx skFuel lineNbr : Nat) (sh0 : SH) (nonSpaceIdx : Nat) :
    Except PErr (SH × Nat × Bool) :=
  let isFirstAdd := !sh0.empty
  match dqScan text endIdx skFuel (endIdx + skFuel + 16) sh0 isFirstAdd nonSpaceIdx nonSpaceIdx with
  | (sh1, fa1, cs1, le1) =>
    let sh2 := if fa1 && sh1.back != '\n' then sh1.addChar ' ' else sh1
    let sh3 := if le1 > cs1 then sh2.addChunk (slice text cs1 le1) else sh2
    if le1 ≥ endIdx then .error ⟨lineNbr, "Parse error: unfinished double-quote string"⟩
    else if charAt text le1 == '"' then
      .ok (sh3, skipWhileU text (fun c => c == ' ' || c == '\t') skFuel (le1 + 1), true)
    else
      .ok ((if nonSpaceIdx == le1 then sh3.addLine [Char.ofNat 10] else sh3), le1, false)

/-- The literal (`|`) case of one line: join with a newline, keep the
bytes beyond the target indent; a shallower non-empty line ends the
scalar. -/
def litLine (text : List Char) (endIdx : Nat) (sh : SH) (nonSpaceIdx idxLineStart colNbr : Nat)
    (targetIndent : Int) (iFL : Bool) : LineOut :=
  let lineEnd := scanToEol text endIdx nonSpaceIdx
  if lineEnd ≠ nonSpaceIdx ∧ (colNbr : Int) < targetIndent then ⟨sh, nonSpaceIdx, true, iFL⟩
  else
    let tgt := targetIndent.toNat
    let sh1 := if !sh.empty then sh.addChar '\n' else sh
    let sh2 := if lineEnd ≥ idxLineStart + tgt then
        sh1.addChunk (slice text (idxLineStart + tgt) lineEnd)
      else sh1
    ⟨sh2, lineEnd, false, iFL⟩

/-- The folded (`>`) case of one line: more-indented lines (or lines
following one) are joined with a newline, the rest with a space. -/
def foldLine (text : List Char) (endIdx : Nat) (sh : SH) (nonSpaceIdx idxLineStart colNbr : Nat)
    (targetIndent : Int) (iFL : Bool) : LineOut :=
  let lineEnd := scanToEol text endIdx nonSpaceIdx
  if lineEnd ≠ nonSpaceIdx ∧ (colNbr : Int) < targetIndent then ⟨sh, nonSpaceIdx, true, iFL⟩
  else
    let tgt := targetIndent.toNat
    let isIndented := lineEnd ≤ idxLineStart + tgt ∨ (¬sh.empty ∧ charAt text (idxLineStart + tgt) = ' ')
    let sh1 :=
      if isIndented ∨ iFL then sh.addChar '\n'
      else if lineEnd > idxLineStart + tgt ∧ ¬sh.empty ∧ sh.back ≠ '\n' then sh.addChar ' '
      else sh
    let iFL1 := lineEnd > idxLineStart + tgt ∧ charAt text (idxLineStart + tgt) = ' '
    let sh2 := if lineEnd > idxLineStart + tgt then
        sh1.addChunk (slice text (idxLineStart + tgt) lineEnd)
      else sh1
    ⟨sh2, lineEnd, false, iFL1⟩

/-- The plain-scalar scan: stop at end of line, at a `#` preceded by a
space (unless at line start), or at a `:` followed by space, newline, or
end of input. -/
def plainScanF (text : List Char) (endIdx idxLineStart : Nat) : Nat → Nat → Nat
  | 0, i => i
  | fuel + 1, i =>
    if i < endIdx then
      let c := charAt text i
      if c = '\n' ∨ c = '\r' then i
      else if c = '#' ∧ i ≠ idxLineStart ∧ charAt text (i - 1) = ' ' then i
      else if c = ':' ∧ (i + 1 = endIdx ∨ charAt text (i + 1) = ' ' ∨ charAt text (i + 1) = '\n'
          ∨ charAt text (i + 1) = '\r') then i
      else plainScanF text endIdx idxLineStart fuel (i + 1)
    else i

/-- Entry with fuel covering the whole scan range. -/
def plainScan (text : List Char) (endIdx idxLineStart : Nat) (i : Nat) : Nat :=
  plainScanF text endIdx idxLineStart (endIdx + 1) i

/-- The plain-scalar case of one line. -/
def plainLine (text : List Char) (endIdx : Nat) (sh : SH)
    (nonSpaceIdx idxLineStart effectiveIndent colNbr : Nat) (targetIndent : Int) (iFL : Bool) :
    LineOut :=
  let lineEnd := plainScan text endIdx idxLineStart nonSpaceIdx
  let isEnd0 := lineEnd < endIdx ∧ charAt text lineEnd ≠ '\n' ∧ charAt text lineEnd ≠ '\r'
  if lineEnd ≠ nonSpaceIdx ∧ (colNbr : Int) < targetIndent then ⟨sh, nonSpaceIdx, true, iFL⟩
  else
    let sh1 := if ¬sh.empty ∧ sh.back ≠ '\n' then sh.addChar ' ' else sh
    let sh2 := sh1.addChunkNoTrail (slice text (idxLineStart + effectiveIndent) lineEnd)
    let sh3 := if ¬isEnd0 ∧ nonSpaceIdx = lineEnd then sh2.addLine [Char.ofNat 10] else sh2
    ⟨sh3, lineEnd, isEnd0, iFL⟩

/-- The running state of getToken's per-line loop. -/
structure LLS where
  sh : SH
  idx : Nat
  colNbr : Nat
  lineNbr : Nat
  targetIndent : Int
  isKey : Bool
  iFL : Bool
deriving Repr

/-- Dispatch one scalar line to its style handler. -/
def lineBody (text : List Char) (endIdx skFuel : Nat) (mlType : Char) (lineNbr : Nat)
    (sh : SH) (nonSpaceIdx idxLineStart effectiveIndent colNbr : Nat) (targetIndent : Int)
    (iFL : Bool) : Except PErr LineOut :=
  if mlType = squote then
    match sqLine text endIdx skFuel lineNbr sh nonSpaceIdx with
    | .error e => .error e
    | .ok (sh1, le1, isEnd1) => .ok ⟨sh1, le1, isEnd1, iFL⟩
  else if mlType = '"' then
    match dqLine text endIdx skFuel lineNbr sh nonSpaceIdx with
    | .error e => .error e
    | .ok (sh1, le1, isEnd1) => .ok ⟨sh1, le1, isEnd1, iFL⟩
  else if mlType = '|' then
    .ok (litLine text endIdx sh nonSpaceIdx idxLineStart colNbr targetIndent iFL)
  else if mlType = '>' then
    .ok (foldLine text endIdx sh nonSpaceIdx idxLineStart colNbr targetIndent iFL)
  else
    .ok (plainLine text endIdx sh nonSpaceIdx idxLineStart effectiveIndent colNbr targetIndent iFL)

/-- The scalar per-line while loop of getToken (lines are consumed until
the scalar ends or input runs out). -/
def lineLoop (text : List Char) (endIdx skFuel : Nat) (mlType : Char) (isNewLine : Bool) :
    Nat → LLS → Except PErr LLS
  | 0, _ => .error ⟨0, "model artifact: line loop fuel exhausted"⟩
  | fuel + 1, st =>
    if st.idx < endIdx then
      let nonSpaceIdx := skipWhile2 text endIdx (fun c => c == ' ') st.idx
      let colNbr1 := st.colNbr + (nonSpaceIdx - st.idx)
      if isNewLine ∧ nonSpaceIdx < endIdx ∧ charAt text nonSpaceIdx = '\t' then
        .error ⟨st.lineNbr, tabMsg⟩
      else
        let effectiveIndent := nonSpaceIdx - st.idx
        if st.targetIndent < 0 ∧ (charAt text nonSpaceIdx = '\n' ∨ charAt text nonSpaceIdx = '\r') then
          let sh1 := if st.sh.empty then st.sh.addLine [] else st.sh.addLine [Char.ofNat 10]
          let idx1 := nonSpaceIdx +
            (if nonSpaceIdx + 1 < endIdx ∧ charAt text nonSpaceIdx = '\r'
                ∧ charAt text (nonSpaceIdx + 1) = '\n' then 2 else 1)
          lineLoop text endIdx skFuel mlType isNewLine fuel
            { st with sh := sh1, idx := idx1, colNbr := 0, lineNbr := st.lineNbr + 1, iFL := true }
        else
          let targetIndent1 : Int := if st.targetIndent < 0 then (colNbr1 : Int) else st.targetIndent
          match lineBody text endIdx skFuel mlType st.lineNbr st.sh nonSpaceIdx st.idx
              effectiveIndent colNbr1 targetIndent1 st.iFL with
          | .error e => .error e
          | .ok lo =>
            let nextLineStartIdx := lo.lineEndIdx +
              (if lo.lineEndIdx + 1 < endIdx ∧ charAt text lo.lineEndIdx = '\r'
                  ∧ charAt text (lo.lineEndIdx + 1) = '\n' then 2 else 1)
            let sh2 := lo.sh.endLine
            let kcol :=
              lo.isEnd ∧ charAt text lo.lineEndIdx = ':' ∧
                (lo.lineEndIdx + 1 = endIdx ∨ charAt text (lo.lineEndIdx + 1) = ' '
                  ∨ charAt text (lo.lineEndIdx + 1) = '\n' ∨ charAt text (lo.lineEndIdx + 1) = '\r')
            let isKey1 := if kcol then true else st.isKey
            let lineEnd2 := if kcol then lo.lineEndIdx + 1 else lo.lineEndIdx
            if lo.isEnd then
              .ok { st with sh := sh2, idx := lineEnd2,
                            colNbr := colNbr1 + (lineEnd2 - nonSpaceIdx),
                            targetIndent := targetIndent1, isKey := isKey1, iFL := lo.iFL }
            else
              let st1 : LLS := { sh := sh2, idx := nextLineStartIdx, colNbr := 0,
                                 lineNbr := st.lineNbr + 1, targetIndent := targetIndent1,
                                 isKey := isKey1, iFL := lo.iFL }
              if st1.idx ≥ endIdx ∧ mlType = '"' then
                .error ⟨st1.lineNbr, "Parse error: unfinished double-quote string"⟩
              else if st1.idx ≥ endIdx ∧ mlType = squote then
                .error ⟨st1.lineNbr, "Parse error: unfinished single-quote string"⟩
              else lineLoop text endIdx skFuel mlType isNewLine fuel st1
    else .ok st

/-- One pass of the block-scalar indicator scan (run twice): a chomp
sign or an explicit indent digit, each acceptable at most once. -/
def indicatorPass (text : List Char) (endIdx lineNbr : Nat) (idx colNbr : Nat)
    (chomp : Char) (deltaIndent : Int) : Except PErr (Nat × Nat × Char × Int) :=
  if idx ≥ endIdx then .ok (idx, colNbr, chomp, deltaIndent)
  else if charAt text idx = '+' ∨ charAt text idx = '-' then
    if chomp ≠ ' ' then
      .error ⟨lineNbr, "Parse error: chomp cannot be provided more than once"⟩
    else .ok (idx + 1, colNbr + 1, charAt text idx, deltaIndent)
  else if '1' ≤ charAt text idx ∧ charAt text idx ≤ '9' then
    if deltaIndent ≥ 0 then
      .error ⟨lineNbr, "Parse error: explicit indentation cannot be provided more than once"⟩
    else .ok (idx + 1, colNbr + 1, chomp, ((charAt text idx).toNat : Int) - 48)
  else .ok (idx, colNbr, chomp, deltaIndent)

/-- The chomp application at scalar termination (getToken line
\"Apply the chomp\"): for other than quoted styles, strip (-) and clip
(default) drop the trailing blank chunks. -/
def applyChomp (mlType chomp : Char) (sh : SH) : SH :=
  if mlType ≠ squote ∧ mlType ≠ '"' ∧ (chomp = '-' ∨ chomp = ' ') then sh.removeTrailingLines
  else sh

/-- The chunk-concatenation loop of the scalar commit (the addToSession
calls over _lineChunks). -/
def chunksFlat (sh : SH) : List Char :=
  sh.chunks.foldl (fun acc lc => acc ++ chunkSlice sh.arena lc) []

/-- The final scalar string built from the line chunks: the chomped
chunks concatenated, plus one newline for block scalars under clip or
keep. -/
def committedString (mlType chomp : Char) (sh : SH) : List Char :=
  let sh5 := applyChomp mlType chomp sh
  chunksFlat sh5
    ++ (if (mlType = '|' ∨ mlType = '>') ∧ (chomp = ' ' ∨ chomp = '+') then [Char.ofNat 10]
        else [])

/-- detail::getToken.  Input: buffer, its length, the multi-line parent
indent, the context, and the cursor (colNbr, lineNbr, idx).  Output: the
token and the updated context and cursor. -/
def getToken (text : List Char) (endIdx : Nat) (parentIndent : Int) (ctx : Ctx)
    (colNbr0 lineNbr0 idx0 : Nat) : Except PErr (Tok × Ctx × Nat × Nat × Nat) :=
  let isNewLine := colNbr0 == 0
  let skFuel := text.length + 16
  let step1 : Except PErr Nat :=
    if isNewLine then
      let i := skipWhile2 text endIdx (fun c => c == ' ') idx0
      if charAt text i = '\t' then .error ⟨lineNbr0, tabMsg⟩ else .ok i
    else .ok (skipWhile2 text endIdx (fun c => c == ' ' || c == '\t') idx0)
  match step1 with
  | .error e => .error e
  | .ok idxFnp =>
    let colNbr := colNbr0 + (idxFnp - idx0)
    let idx := idxFnp
    let startColNbr := colNbr
    if idx ≥ endIdx then .ok (⟨.Eos, startColNbr, 0, 0⟩, ctx, colNbr, lineNbr0, idx)
    else
      let firstChar := charAt text idx
      if firstChar = '\n' ∨ firstChar = '\r' then
        let idx1 := if idx + 1 < endIdx ∧ firstChar = '\r' ∧ charAt text (idx + 1) = '\n'
          then idx + 1 else idx
        .ok (⟨.Newline, startColNbr, 0, 0⟩, ctx, 0, lineNbr0 + 1, idx1 + 1)
      else if firstChar = '-' ∧ (idx + 1 = endIdx ∨ charAt text (idx + 1) = ' '
          ∨ charAt text (idx + 1) = '\r' ∨ charAt text (idx + 1) = '\n') then
        .ok (⟨.Caret, startColNbr, 0, 0⟩, ctx, colNbr + 1, lineNbr0, idx + 1)
      else if firstChar = '#' then
        let startIdx := idx + 1
        let idx1 := skipWhile2 text endIdx (fun c => c != '\r' && c != '\n') idx
        match ctx.addString (slice text startIdx idx1) with
        | (ctx1, si, ss) =>
          .ok (⟨.Comment, startColNbr, si, ss⟩, ctx1, colNbr + (idx1 - idx), lineNbr0, idx1)
      else
        -- scalar: select the style and possibly consume the indicator line
        let quadE : Except PErr (Char × Char × Int × Int × SH × Nat × Nat × Nat × Bool) :=
          -- (mlType, chomp, deltaIndent, targetIndent, sh, idx, colNbr, lineNbr, isNewLine)
          if firstChar = squote ∨ firstChar = '"' then
            let idxA := idx + 1
            let nonSpaceIdx := skipWhile2 text endIdx (fun c => c == ' ') idxA
            let sh1 := (List.range (nonSpaceIdx - idxA)).foldl (fun s _ => s.addChar ' ') SH.start
            .ok (firstChar, ' ', -1, 0, sh1, idxA, colNbr + 1 + (nonSpaceIdx - idxA), lineNbr0, isNewLine)
          else if firstChar = '|' ∨ firstChar = '>' then
            match indicatorPass text endIdx lineNbr0 (idx + 1) (colNbr + 1) ' ' (-1) with
            | .error e => .error e
            | .ok (i1, c1, ch1, d1) =>
              match indicatorPass text endIdx lineNbr0 i1 c1 ch1 d1 with
              | .error e => .error e
              | .ok (i2, _, ch2, d2) =>
                let i3 := skipWhile2 text endIdx (fun c => c != '\n' && c != '\r') i2
                let i4 := if i3 + 1 < endIdx ∧ charAt text i3 = '\r' ∧ charAt text (i3 + 1) = '\n'
                  then i3 + 1 else i3
                let tgt : Int := if d2 ≥ 0 then parentIndent + d2 else -1
                .ok (firstChar, ch2, d2, tgt, SH.start, i4 + 1, 0, lineNbr0 + 1, true)
          else
            let tgt : Int := if (colNbr : Int) > parentIndent then parentIndent + 1 else (colNbr : Int)
            .ok (' ', ' ', -1, tgt, SH.start, idx, colNbr, lineNbr0, isNewLine)
        match quadE with
        | .error e => .error e
        | .ok (mlType, chomp, _, targetIndent0, sh0, idxB, colB, lineB, isNewLineB) =>
          match lineLoop text endIdx skFuel mlType isNewLineB (endIdx + 16)
              ⟨sh0, idxB, colB, lineB, targetIndent0, false, false⟩ with
          | .error e => .error e
          | .ok stF =>
            let ctx1 := ctx.startStringSession
            let ctx3 := ctx1.addToSession (committedString mlType chomp stF.sh)
            match ctx3.commitSession with
            | (ctx4, si, ss) =>
              .ok (⟨if stF.isKey then .Key else .StringValue, startColNbr, si, ss⟩,
                   ctx4, stF.colNbr, stF.lineNbr, stF.idx)

/-! ## Tree builder (styml::parse) -/

/-- One stack frame of the pushdown builder. -/
structure ParseItem where
  eltIdx : Nat
  indent : Int
  childIndent : Int
deriving DecidableEq, Repr

/-- The value stack.back() yields on an empty stack (C undefined
behaviour, kept deterministic here). -/
def dummyItem : ParseItem := ⟨0, -1, -1⟩

/-- The builder stack, top first. -/
abbrev PStack := List ParseItem

/-- stack.back(). -/
def stackBack (stack : PStack) : ParseItem := stack.headD dummyItem

/-- stack[stack.size()-2]: the frame below the top. -/
def stackSecond (stack : PStack) : ParseItem := (stack.drop 1).headD dummyItem

/-- Replace the top frame. -/
def stackSetTop (stack : PStack) (it : ParseItem) : PStack :=
  match stack with
  | [] => []
  | _ :: rest => it :: rest

/-- Replace the frame below the top. -/
def stackSetSecond (stack : PStack) (it : ParseItem) : PStack :=
  match stack with
  | a :: _ :: rest => a :: it :: rest
  | s => s

/-- The caret pop loop: unwind frames while the caret is shallower,
except directly below a key (the "a:\n- b" idiom, also through a pending
UNKNOWN frame). -/
def caretPop (elements : List Element) (colNbr : Int) :
    PStack → ParseItem → PStack × ParseItem
  | [], parent => ([], parent)
  | top :: rest, parent =>
    let stack := top :: rest
    let pType := (elements.getD parent.eltIdx .unknown).getType
    let second := stackSecond stack
    let sType := (elements.getD second.eltIdx .unknown).getType
    if (pType ≠ KEY ∨ colNbr ≠ parent.indent) ∧
        (pType ≠ UNKNOWN ∨ stack.length < 2 ∨ sType ≠ KEY ∨ colNbr ≠ second.indent) ∧
        colNbr ≤ parent.indent ∧
        (parent.childIndent < 0 ∨ colNbr < parent.childIndent) then
      caretPop elements colNbr rest (stackBack rest)
    else (stack, parent)

/-- The key pop loop: unwind frames while the key column is at or left
of the parent indent. -/
def keyPop (colNbr : Int) : PStack → ParseItem → PStack × ParseItem
  | [], parent => ([], parent)
  | top :: rest, parent =>
    if colNbr ≤ parent.indent then keyPop colNbr rest (stackBack rest)
    else (top :: rest, parent)

/-- Walk a next-comment chain to its last element. -/
def commentChainEnd (elements : List Element) : Nat → Nat → Nat
  | 0, i => i
  | fuel + 1, i =>
    let nxt := (elements.getD i .unknown).getNextCommentIndex
    if nxt ≠ 0 then commentChainEnd elements fuel nxt else i

/-- The mutable state of the parse loop. -/
structure PState where
  ctx : Ctx
  stack : PStack
  parent : ParseItem
  mlStringParentIndent : Int
  indexColNbr : Nat
  lineNbr : Nat
  startIdx : Nat
  tokenLineNbr : Nat
  tokenIdx : Nat
deriving Repr

/-- Handle one Comment token. -/
def stepComment (st : PState) (tok : Tok) (isStartingWithNewLine : Bool) : PState :=
  let eltIdx := st.ctx.elements.length
  let c0 : Element := .comment tok.stringIdx tok.stringSize false 0
  let c1 := if isStartingWithNewLine then Element.comment tok.stringIdx tok.stringSize true 0 else c0
  let ctx1 := { st.ctx with elements := st.ctx.elements ++ [c1] }
  let pc0 := st.parent.eltIdx
  let pc1 := if (ctx1.elt pc0).getType = UNKNOWN ∧ st.stack.length ≥ 2
    then (stackSecond st.stack).eltIdx else pc0
  if (ctx1.elt pc1).getType ≠ UNKNOWN then
    let pc2 := commentChainEnd ctx1.elements (ctx1.elements.length + 1) pc1
    { st with ctx := { ctx1 with elements := ctx1.elements.set pc2 ((ctx1.elt pc2).setComment eltIdx) } }
  else { st with ctx := ctx1 }

/-- Handle one Caret token. -/
def stepCaret (st : PState) (tok : Tok) : Except PErr PState :=
  let colNbr : Int := tok.startColNbr
  let st := { st with mlStringParentIndent := colNbr }
  match caretPop st.ctx.elements colNbr st.stack st.parent with
  | (stack1, parent1) =>
    if stack1.isEmpty then
      .error ⟨st.tokenLineNbr, "Parse error: the indentation of the caret (=" ++ toString colNbr
        ++ ") does not match any parent (=" ++ toString parent1.childIndent ++ ")"⟩
    else if parent1.childIndent ≥ 0 ∧ colNbr ≠ parent1.childIndent then
      .error ⟨st.tokenLineNbr, "Parse error: the indentation of the caret (=" ++ toString colNbr
        ++ ") is not aligned with other child elements (=" ++ toString parent1.childIndent ++ ")"⟩
    else
      let afterSeq : Except PErr (Ctx × PStack × ParseItem) :=
        if (st.ctx.elt parent1.eltIdx).getType ≠ SEQUENCE then
          if (st.ctx.elt parent1.eltIdx).getType = UNKNOWN then
            let ctx1 := { st.ctx with elements := st.ctx.elements.set parent1.eltIdx ((st.ctx.elt parent1.eltIdx).reset SEQUENCE) }
            let stack2 := stackSetTop stack1 { stackBack stack1 with indent := colNbr, childIndent := colNbr }
            let parent2 := stackBack stack2
            let stack3 := if (stackSecond stack2).childIndent < 0
              then stackSetSecond stack2 { stackSecond stack2 with childIndent := colNbr }
              else stack2
            .ok (ctx1, stack3, parent2)
          else
            if (st.ctx.elt parent1.eltIdx).getType = KEY ∧ (st.ctx.elt parent1.eltIdx).getSubQty > 0 then
              .error ⟨st.tokenLineNbr,
                "Parse error: probably bad indentation with caret, as the parent (" ++ sq ++ "Key"
                ++ sq ++ ") already has a value"⟩
            else
              let eltIdx := st.ctx.elements.length
              let ctx1 := { st.ctx with elements := st.ctx.elements ++ [Element.sequence []] }
              let stack2 : PStack := ⟨eltIdx, colNbr, colNbr⟩ :: stack1
              let ctx2 := { ctx1 with elements := ctx1.elements.set parent1.eltIdx ((ctx1.elt parent1.eltIdx).add eltIdx) }
              .ok (ctx2, stack2, stackBack stack2)
        else .ok (st.ctx, stack1, parent1)
      match afterSeq with
      | .error e => .error e
      | .ok (ctx2, stack2, parent2) =>
        let eltIdx := ctx2.elements.length
        let ctx3 := { ctx2 with elements := ctx2.elements ++ [Element.unknown] }
        let stack3 : PStack := ⟨eltIdx, colNbr, -1⟩ :: stack2
        let ctx4 := { ctx3 with elements := ctx3.elements.set parent2.eltIdx ((ctx3.elt parent2.eltIdx).add eltIdx) }
        .ok { st with ctx := ctx4, stack := stack3, parent := stackBack stack3 }

/-- The ParseException main message on a duplicated map key. -/
def dupKeyMsg (k : List Char) : String :=
  "Parse error: duplicated key are forbidden and the key " ++ sq ++ String.mk k
    ++ sq ++ " is already present."

/-- Handle one Key token. -/
def stepKey (st : PState) (tok : Tok) : Except PErr PState :=
  let colNbr : Int := tok.startColNbr
  let st := { st with mlStringParentIndent := colNbr }
  match keyPop colNbr st.stack st.parent with
  | (stack1, parent1) =>
    if stack1.isEmpty then
      .error ⟨st.tokenLineNbr, "Parse error: the indentation of the key (=" ++ toString colNbr
        ++ ") does not match any parent (=" ++ toString parent1.childIndent ++ ")"⟩
    else if parent1.childIndent ≥ 0 ∧ colNbr < parent1.childIndent then
      .error ⟨st.tokenLineNbr, "Parse error: the indentation of the key (=" ++ toString colNbr
        ++ ") is not aligned with other child elements (=" ++ toString parent1.childIndent ++ ")"⟩
    else
      let (stack2, parent2) :=
        if parent1.childIndent < 0 then
          let s := stackSetTop stack1 { stackBack stack1 with childIndent := colNbr }
          (s, stackBack s)
        else (stack1, parent1)
      let afterMap : Except PErr (Ctx × PStack × ParseItem) :=
        if (st.ctx.elt parent2.eltIdx).getType ≠ MAP then
          if (st.ctx.elt parent2.eltIdx).getType = UNKNOWN then
            .ok ({ st.ctx with elements := st.ctx.elements.set parent2.eltIdx ((st.ctx.elt parent2.eltIdx).reset MAP) },
              stack2, parent2)
          else
            if (st.ctx.elt parent2.eltIdx).getType = KEY ∧ (st.ctx.elt parent2.eltIdx).getSubQty > 0 then
              .error ⟨st.tokenLineNbr, "Parse error: probably bad indentation, as the parent ("
                ++ sq ++ "Key" ++ sq ++ ") already has a value"⟩
            else
              let eltIdx := st.ctx.elements.length
              let ctx1 := { st.ctx with elements := st.ctx.elements ++ [Element.map []] }
              let stack3 : PStack := ⟨eltIdx, parent2.indent, -1⟩ :: stack2
              let ctx2 := { ctx1 with elements := ctx1.elements.set parent2.eltIdx ((ctx1.elt parent2.eltIdx).add eltIdx) }
              .ok (ctx2, stack3, stackBack stack3)
        else .ok (st.ctx, stack2, parent2)
      match afterMap with
      | .error e => .error e
      | .ok (ctx2, stack3, parent3) =>
        let stack4 := if parent3.childIndent < 0
          then stackSetTop stack3 { stackBack stack3 with childIndent := colNbr }
          else stack3
        let eltIdx := ctx2.elements.length
        let ctx3 := { ctx2 with elements := ctx2.elements ++ [Element.key tok.stringIdx tok.stringSize 0 0] }
        let stack5 : PStack := ⟨eltIdx, colNbr, -1⟩ :: stack4
        let ctx4 := { ctx3 with elements := ctx3.elements.set parent3.eltIdx ((ctx3.elt parent3.eltIdx).add eltIdx) }
        match ctx4.addMapChildIndex parent3.eltIdx (arenaStr ctx4 tok.stringIdx (tok.stringSize - 1))
            (ctx4.elt parent3.eltIdx) ((ctx4.elt parent3.eltIdx).getSubQty - 1) with
        | none => .error ⟨0, probeFuelMsg⟩
        | some (inserted, ctx5) =>
          if ¬inserted then
            .error ⟨st.tokenLineNbr, dupKeyMsg (cString ctx5.arena tok.stringIdx)⟩
          else
            let parent4 := stackBack stack5
            let eltIdx2 := ctx5.elements.length
            let ctx6 := { ctx5 with elements := ctx5.elements ++ [Element.unknown] }
            let stack6 : PStack := ⟨eltIdx2, colNbr, -1⟩ :: stack5
            let ctx7 := { ctx6 with elements := ctx6.elements.set parent4.eltIdx ((ctx6.elt parent4.eltIdx).add eltIdx2) }
            .ok { st with ctx := ctx7, stack := stack6, parent := stackBack stack6 }

/-- Handle one StringValue token. -/
def stepValue (st : PState) (tok : Tok) : Except PErr PState :=
  let colNbr : Int := tok.startColNbr
  if colNbr ≤ st.parent.indent then
    .error ⟨st.tokenLineNbr, "Parse error: the indentation of the value (=" ++ toString colNbr
      ++ ") is not compatible with the parent indentation (=" ++ toString st.parent.indent ++ ")"⟩
  else if st.parent.childIndent ≥ 0 ∧ colNbr < st.parent.childIndent then
    .error ⟨st.tokenLineNbr, "Parse error: the indentation of the value (=" ++ toString colNbr
      ++ ") is not aligned with other child elements (=" ++ toString st.parent.childIndent ++ ")"⟩
  else if (st.ctx.elt st.parent.eltIdx).getType = MAP then
    .error ⟨st.tokenLineNbr, "Parse error: in a map, a value without a key is forbidden"⟩
  else
    let (stack1, parent1) :=
      if st.parent.childIndent < 0 then
        let s := stackSetTop st.stack { stackBack st.stack with childIndent := colNbr }
        (s, stackBack s)
      else (st.stack, st.parent)
    let (ctx2, stack2, parent2) :=
      if (st.ctx.elt parent1.eltIdx).getType = UNKNOWN then
        let e1 := ((st.ctx.elt parent1.eltIdx).reset VALUE).setString tok.stringIdx tok.stringSize
        let ctx1 := { st.ctx with elements := st.ctx.elements.set parent1.eltIdx e1 }
        (ctx1, stack1.tail, stackBack stack1.tail)
      else
        let eltIdx := st.ctx.elements.length
        let ctx1 := { st.ctx with elements := st.ctx.elements ++ [Element.value tok.stringIdx tok.stringSize 0] }
        let ctx2 := { ctx1 with elements := ctx1.elements.set parent1.eltIdx ((ctx1.elt parent1.eltIdx).add eltIdx) }
        (ctx2, stack1, parent1)
    if (ctx2.elt parent2.eltIdx).getType = KEY then
      .ok { st with ctx := ctx2, stack := stack2.tail, parent := stackBack stack2.tail }
    else
      .ok { st with ctx := ctx2, stack := stack2, parent := parent2 }

/-- The parse loop over tokens. -/
def parseLoop (text : List Char) : Nat → PState → Except PErr Ctx
  | 0, _ => .error ⟨0, "model artifact: parse loop fuel exhausted"⟩
  | fuel + 1, st =>
    if st.stack.isEmpty then .ok st.ctx
    else
      let isStartingWithNewLine := st.indexColNbr == 0
      match getToken text text.length st.mlStringParentIndent st.ctx
          st.indexColNbr st.lineNbr st.startIdx with
      | .error e => .error e
      | .ok (tok, ctx1, col1, line1, idx1) =>
        let st1 := { st with ctx := ctx1, indexColNbr := col1, lineNbr := line1, startIdx := idx1 }
        let next : Except PErr (Option PState) :=
          match tok.type with
          | .Comment => .ok (some (stepComment st1 tok isStartingWithNewLine))
          | .Caret => (stepCaret st1 tok).map some
          | .Key => (stepKey st1 tok).map some
          | .StringValue => (stepValue st1 tok).map some
          | .Newline =>
            .ok (some { st1 with mlStringParentIndent := st1.parent.indent, indexColNbr := 0 })
          | .Eos => .ok none
        match next with
        | .error e => .error e
        | .ok none => .ok st1.ctx
        | .ok (some st2) =>
          parseLoop text fuel { st2 with tokenLineNbr := st2.lineNbr, tokenIdx := st2.startIdx }

/-- styml::parse(text): build the document context from the input. -/
def parseE (text : List Char) : Except PErr Ctx :=
  parseLoop text (text.length + 2) ⟨docInit, [⟨0, -1, -1⟩], ⟨0, -1, -1⟩, -1, 0, 1, 0, 1, 0⟩

/-! ## YAML emitter (detail::dumpAsYaml) -/

/-- The three live output styles of the YAML scalar emitter (the
literal-block branch is dead code behind `true || ...`). -/
inductive ScalarStyle where
  | plain | singleQ | doubleQ
deriving DecidableEq, Repr

/-- One step of the style-selection scan: count newlines, strike
plain on `:` followed by space/CR/LF within the string, and on `#` at
the start or after a space. -/
def styleScanStep (text : List Char) (textSize idx : Nat) (acc : Bool × Nat) : Bool × Nat :=
  let c := charAt text idx
  let nl := if c = '\n' then acc.2 + 1 else acc.2
  let p1 := if acc.1 ∧ c = ':' ∧ idx + 1 < textSize ∧
      (charAt text (idx + 1) = ' ' ∨ charAt text (idx + 1) = '\r' ∨ charAt text (idx + 1) = '\n')
    then false else acc.1
  let p2 := if p1 ∧ c = '#' ∧ (idx = 0 ∨ charAt text (idx - 1) = ' ') then false else p1
  (p2, nl)

/-- The style the YAML emitter chooses for a non-empty scalar: plain
when the scan left isPlain set and no newline was seen, else
single-quoted when no newline, else double-quoted.  (The trailing
newline recount in the source only feeds the dead literal branch.) -/
def scalarStyle (text : List Char) : ScalarStyle :=
  let textSize := text.length
  let isPlain0 := charAt text 0 ≠ ' ' ∧ charAt text 0 ≠ '>' ∧ charAt text 0 ≠ '|' ∧
    charAt text 0 ≠ squote ∧ charAt text 0 ≠ '"' ∧ charAt text (textSize - 1) ≠ ' '
  let r := (List.range textSize).foldl (fun acc idx => styleScanStep text textSize idx acc)
    (decide isPlain0, 0)
  if r.1 ∧ r.2 = 0 then .plain
  else if r.2 = 0 then .singleQ
  else .doubleQ

/-- One escaped character of the double-quoted output. -/
def dqEscChar (text : List Char) (textSize idx : Nat) : List Char :=
  let c := charAt text idx
  if c = '"' then ['\\', '"']
  else if c = '\n' then ['\\', 'n']
  else if c = '\r' then ['\\', 'r']
  else if c = '\t' then ['\\', 't']
  else if c = '\\' then
    if idx + 1 ≥ textSize ∨ (charAt text (idx + 1) ≠ 'u' ∧ charAt text (idx + 1) ≠ 'U'
        ∧ charAt text (idx + 1) ≠ 'x')
    then ['\\', '\\'] else ['\\']
  else [c]

/-- The double-quoted escaping pass. -/
def dqEscape (text : List Char) : List Char :=
  (List.range text.length).foldl (fun acc i => acc ++ dqEscChar text text.length i) []

/-- The single-quoted escaping pass (quote doubling). -/
def sqEscape (text : List Char) : List Char :=
  text.foldl (fun acc c => acc ++ (if c = squote then [squote, squote] else [c])) []

/-- n levels of two-space indent. -/
def indentOf (n : Int) : List Char := List.replicate (2 * n.toNat) ' '

/-- A stack item of the YAML dump walk. -/
structure DumpItem where
  eltIdx : Nat
  indent : Int
  parentType : NodeType
deriving Repr

/-- The running state of the YAML dump walk. -/
structure DumpState where
  out : List Char
  stack : List DumpItem
  isFirst : Bool
  lastIsComment : Bool
  lastIsKey : Bool
deriving Repr

/-- The piggybacked-comment chain emission after a host element. -/
def dumpComments (ctx : Ctx) (indent : Int) :
    Nat → Nat → List Char → Bool → Bool → List Char × Bool × Bool
  | 0, _, out, lastIsComment, isFirst => (out, lastIsComment, isFirst)
  | fuel + 1, i, out, lastIsComment, isFirst =>
    if i ≠ 0 then
      let elt := ctx.elt i
      let out1 := if lastIsComment || elt.isStandalone then
          (if ¬isFirst then out ++ ['\n'] else out) ++ indentOf indent
        else out ++ [' ']
      let out2 := out1 ++ ['#'] ++ arenaStr ctx elt.getStringIdx (elt.getStringSize - 1)
      dumpComments ctx indent fuel elt.getNextCommentIndex out2 true false
    else (out, lastIsComment, isFirst)

/-- One scalar emission (the VALUE branch's style dispatch). -/
def emitScalar (text : List Char) (lastIsKey : Bool) (out : List Char) : List Char :=
  let lead := if lastIsKey then [' '] else ([] : List Char)
  match scalarStyle text with
  | .plain => out ++ lead ++ text
  | .singleQ => out ++ lead ++ [squote] ++ sqEscape text ++ [squote]
  | .doubleQ => out ++ lead ++ ['"'] ++ dqEscape text ++ ['"']

/-- The YAML dump walk (detail::dumpAsYaml's while loop).  The final
`addChar('\0')` of the source, which embeds one trailing NUL in the
returned std::string, is left out: the printable bytes are compared. -/
def dumpLoop (ctx : Ctx) : Nat → DumpState → Option (List Char)
  | 0, _ => none
  | fuel + 1, st =>
    match st.stack with
    | [] => some st.out
    | it :: rest =>
      let v := ctx.elt it.eltIdx
      let next : DumpState :=
        match v.getType with
        | KEY =>
          let r :=
            if v.getStringSize > 1 then
              let (out1, ind1) :=
                if it.parentType = SEQUENCE then (st.out, it.indent + 1)
                else ((if ¬st.isFirst then st.out ++ ['\n'] else st.out) ++ indentOf it.indent,
                      it.indent)
              let out2 := out1 ++ arenaStr ctx v.getStringIdx (v.getStringSize - 1) ++ [':']
              (out2, ind1 + 1, false)
            else (st.out, it.indent, st.isFirst)
          let stack1 := if v.getSubQty > 0 then
              (⟨v.getKeyValue, r.2.1, KEY⟩ : DumpItem) :: rest
            else rest
          { out := r.1, stack := stack1, isFirst := r.2.2,
            lastIsComment := st.lastIsComment, lastIsKey := true }
        | SEQUENCE =>
          let (out1, ind1) :=
            if it.parentType = SEQUENCE then
              ((if ¬st.isFirst then st.out ++ ['\n'] else st.out) ++ indentOf it.indent
                ++ ['-', ' '], it.indent + 1)
            else (st.out, it.indent)
          let kids := (List.range v.getSubQty).map
            (fun i => (⟨v.getSub i, ind1, SEQUENCE⟩ : DumpItem))
          { out := out1, stack := kids ++ rest, isFirst := false,
            lastIsComment := st.lastIsComment, lastIsKey := st.lastIsKey }
        | MAP =>
          let (out1, ind1) :=
            if it.parentType = SEQUENCE then
              ((if ¬st.isFirst then st.out ++ ['\n'] else st.out) ++ indentOf it.indent
                ++ ['-', ' '], it.indent + 1)
            else (st.out, it.indent)
          let kids := (List.range v.getSubQty).map
            (fun i => (⟨v.getSub i, ind1, MAP⟩ : DumpItem))
          let kids1 := if it.parentType = SEQUENCE then
              match kids with
              | k0 :: ks => { k0 with indent := k0.indent - 1, parentType := SEQUENCE } :: ks
              | [] => kids
            else kids
          { out := out1, stack := kids1 ++ rest, isFirst := st.isFirst,
            lastIsComment := st.lastIsComment, lastIsKey := st.lastIsKey }
        | VALUE =>
          let out1 :=
            if it.parentType ≠ KEY ∨ st.lastIsComment then
              (if ¬st.isFirst then st.out ++ ['\n'] else st.out) ++ indentOf it.indent
                ++ (if it.parentType = SEQUENCE then ['-', ' '] else [])
            else st.out
          let r :=
            if v.getStringSize > 1 then
              (emitScalar (arenaStr ctx v.getStringIdx (v.getStringSize - 1)) st.lastIsKey out1,
               false)
            else (out1, st.isFirst)
          { out := r.1, stack := rest, isFirst := r.2,
            lastIsComment := st.lastIsComment, lastIsKey := st.lastIsKey }
        | COMMENT =>
          let out1 := if v.isStandalone then
              (if ¬st.isFirst then st.out ++ ['\n'] else st.out) ++ indentOf it.indent
            else st.out ++ [' ']
          let out2 := out1 ++ ['#'] ++ arenaStr ctx v.getStringIdx (v.getStringSize - 1)
          { out := out2, stack := rest, isFirst := false,
            lastIsComment := true, lastIsKey := st.lastIsKey }
        | UNKNOWN =>
          let out1 :=
            if it.parentType ≠ KEY then
              (if ¬st.isFirst then st.out ++ ['\n'] else st.out) ++ indentOf it.indent
                ++ (if it.parentType = SEQUENCE then ['-', ' '] else [])
            else st.out
          { out := out1, stack := rest, isFirst := st.isFirst,
            lastIsComment := st.lastIsComment, lastIsKey := st.lastIsKey }
      let indF : Int :=
        match v.getType with
        | KEY => if v.getStringSize > 1 then
            (if it.parentType = SEQUENCE then it.indent + 2 else it.indent + 1) else it.indent
        | SEQUENCE => if it.parentType = SEQUENCE then it.indent + 1 else it.indent
        | MAP => if it.parentType = SEQUENCE then it.indent + 1 else it.indent
        | VALUE => if it.parentType = SEQUENCE then it.indent + 1 else it.indent
        | UNKNOWN => if it.parentType ≠ KEY ∧ it.parentType = SEQUENCE then it.indent + 1 else it.indent
        | COMMENT => it.indent
      let lic1 := if v.getType ≠ COMMENT then false else next.lastIsComment
      let lik1 := if v.getType ≠ KEY then false else next.lastIsKey
      match dumpComments ctx indF (ctx.elements.length + 1) (v.getNextCommentIndex)
          next.out lic1 next.isFirst with
      | (out3, lic2, isFirst3) =>
        dumpLoop ctx fuel { out := out3, stack := next.stack, isFirst := isFirst3,
                            lastIsComment := lic2, lastIsKey := lik1 }

/-- Document::asYaml(): run the dump walk from the root element. -/
def asYaml (ctx : Ctx) (fuel : Nat) : Option (List Char) :=
  dumpLoop ctx fuel ⟨[], [⟨0, 0, (ctx.elt 0).getType⟩], true, false, false⟩

/-! ## Structural emitter (detail::dumpAsPyStruct) -/

/-- The opening brace byte. -/
def lbrace : Char := Char.ofNat 123

/-- The closing brace byte. -/
def rbrace : Char := Char.ofNat 125

/-- A stack item of the structural dump. -/
structure PyItem where
  eltIdx : Nat
  indent : Int
  isEnd : Bool
  withPrefix : Bool
  isLast : Bool
deriving Repr

/-- The optional newline-and-indent prefix of the indented mode. -/
def pyPrefix (withPrefix : Bool) (indent : Int) (out : List Char) : List Char :=
  if withPrefix then out ++ ['\n'] ++ indentOf indent else out

/-- The structural dump walk (dumpAsPyStruct's while loop). -/
def pyLoop (ctx : Ctx) (withIndent : Bool) : Nat → List PyItem → List Char → Option (List Char)
  | 0, _, _ => none
  | fuel + 1, stack, out =>
    match stack with
    | [] => some out
    | it :: rest =>
      let v := ctx.elt it.eltIdx
      let withPrefix := withIndent && it.withPrefix
      match v.getType with
      | KEY =>
        let out1 := if v.getStringSize > 1 then
            pyPrefix withPrefix it.indent out ++ [squote]
              ++ arenaStr ctx v.getStringIdx (v.getStringSize - 1) ++ [squote] ++ (str " : ")
          else out
        if v.getSubQty > 0 then
          pyLoop ctx withIndent fuel (⟨v.getKeyValue, it.indent, false, false, it.isLast⟩ :: rest) out1
        else
          pyLoop ctx withIndent fuel rest (out1 ++ str "None" ++ (if ¬it.isLast then [','] else []))
      | SEQUENCE =>
        if it.isEnd then
          pyLoop ctx withIndent fuel rest
            (pyPrefix withPrefix it.indent out ++ [']'] ++ (if ¬it.isLast then [','] else []))
        else
          let isOneLiner := v.getSubQty ≤ 1
          let kids := (List.range v.getSubQty).map (fun i =>
            (⟨v.getSub i, it.indent + 1, false, ¬isOneLiner, i + 1 = v.getSubQty⟩ : PyItem))
          pyLoop ctx withIndent fuel
            (kids ++ [(⟨it.eltIdx, it.indent, true, ¬isOneLiner, it.isLast⟩ : PyItem)] ++ rest)
            (pyPrefix withPrefix it.indent out ++ ['['])
      | MAP =>
        if it.isEnd then
          pyLoop ctx withIndent fuel rest
            (pyPrefix withPrefix it.indent out ++ [rbrace] ++ (if ¬it.isLast then [','] else []))
        else
          let isOneLiner := v.getSubQty ≤ 1
          let kids := (List.range v.getSubQty).map (fun i =>
            (⟨v.getSub i, it.indent + 1, false, ¬isOneLiner, i + 1 = v.getSubQty⟩ : PyItem))
          pyLoop ctx withIndent fuel
            (kids ++ [(⟨it.eltIdx, it.indent, true, ¬isOneLiner, it.isLast⟩ : PyItem)] ++ rest)
            (pyPrefix withPrefix it.indent out ++ [lbrace])
      | VALUE =>
        let out1 := pyPrefix withPrefix it.indent out
        if v.getStringSize ≤ 1 then
          pyLoop ctx withIndent fuel rest (out1 ++ str "None" ++ (if ¬it.isLast then [','] else []))
        else
          let out2 := out1 ++ ['"'] ++ dqEscape (arenaStr ctx v.getStringIdx (v.getStringSize - 1))
            ++ ['"'] ++ (if ¬it.isLast then [','] else [])
          pyLoop ctx withIndent fuel rest out2
      | COMMENT => pyLoop ctx withIndent fuel rest out
      | UNKNOWN =>
        pyLoop ctx withIndent fuel rest
          (pyPrefix withPrefix it.indent out ++ str "None" ++ (if ¬it.isLast then [','] else []))

/-- Document::asPyStruct(withIndent): run the structural walk and drop
one trailing comma (the NUL append of the source is again left out). -/
def asPyStruct (ctx : Ctx) (withIndent : Bool) (fuel : Nat) : Option (List Char) :=
  (pyLoop ctx withIndent fuel [⟨0, 0, false, false, true⟩] []).map (fun out =>
    if out ≠ [] ∧ charAt out (out.length - 1) = ',' then out.dropLast else out)

/-- parse followed by asYaml (none on parse failure or fuel). -/
def yamlOfInput (text : List Char) (fuel : Nat) : Option (List Char) :=
  match parseE text with
  | .error _ => none
  | .ok ctx => asYaml ctx fuel

/-- parse followed by asPyStruct (none on parse failure or fuel). -/
def pyOfInput (text : List Char) (fuel : Nat) : Option (List Char) :=
  match parseE text with
  | .error _ => none
  | .ok ctx => asPyStruct ctx false fuel

/-! ## Theorems -/

/-- The input of the round-trip counterexample: a: followed by the
single-quoted scalar - x. -/
def c1Input : List Char := str "a: " ++ [squote] ++ str "- x" ++ [squote]

/-- Claim C1: the parse-emit round trip is claimed to reproduce a
structurally identical tree with byte-identical second emission, for
every input that parses.  The input a: (single-quoted)- x parses to a
map whose value is the scalar "- x"; the emitter writes that scalar in
plain style as `a: - x`, which re-parses as a sequence, so the second
emission differs from the first and the structural emissions differ:
the code does not meet the documented guarantee. -/
theorem C1_roundtrip_broken_on_quoted_dash :
    yamlOfInput c1Input 100 = some (str "a: - x") ∧
    yamlOfInput (str "a: - x") 100 = some (str "a:" ++ ['\n'] ++ str "  - x") ∧
    (pyOfInput c1Input 100).isSome = true ∧
    pyOfInput c1Input 100 ≠ pyOfInput (str "a: - x") 100 ∧
    str "a: - x" ≠ str "a:" ++ ['\n'] ++ str "  - x" := by
  decide

/-- A document whose root was turned into an empty map
(Document(); root = styml::MAP). -/
def mapRoot : Ctx := ((nodeAssignKind docInit ⟨0, []⟩ MAP).toOption.getD (docInit, ⟨0, []⟩)).1

/-- mapRoot with two submap children: root[m] = MAP (map at element 1)
and root[z] = MAP (map at element 3). -/
def twoMaps : Ctx :=
  let a := ((nodeAssignKind mapRoot ⟨0, str "m"⟩ MAP).toOption.getD (mapRoot, ⟨0, []⟩)).1
  ((nodeAssignKind a ⟨0, str "z"⟩ MAP).toOption.getD (a, ⟨0, []⟩)).1

/-- twoMaps with map 1 holding key x and map 3 holding key y (both keys
hash into the bucket at slot 8): x occupies slot 8, y slot 9. -/
def c3pre : Ctx :=
  let a := ((nodeAssignString twoMaps ⟨1, str "x"⟩ (str "v")).toOption.getD (twoMaps, ⟨0, []⟩)).1
  ((nodeAssignString a ⟨3, str "y"⟩ (str "w")).toOption.getD (a, ⟨0, []⟩)).1

/-- c3pre after removing x from map 1: its slot 8 holds a tombstone that
now precedes the live entry of (map 3, y) in their shared bucket. -/
def c3post : Ctx := ((nodeRemoveKey c3pre ⟨1, []⟩ (str "x")).toOption.getD (false, c3pre)).2

/-- Claim C3 counterexample: in the state reached by inserting x into
map 1 and y into map 3 (same bucket) and then removing x, slot 8 holds
a tombstone and slot 9 the live entry of (3, y); find traverses the
tombstone and returns position 0, but insert_or_replace stops its scan
at the tombstone and inserts there, returning true — not false as the
claim states. -/
theorem C3_counterexample_insert_stops_at_tombstone :
    ((nodeRemoveKey c3pre ⟨1, []⟩ (str "x")).toOption.map Prod.fst = some true) ∧
    keyHashOf 3 (str "y") &&& maskOf c3post.entries.length = 8 ∧
    (c3post.entries.getD 8 zeroEntry).hash = 1 ∧
    entryMatches c3post (keyHashOf 3 (str "y")) (str "y") (c3post.elt 3)
      (c3post.entries.getD 9 zeroEntry) = true ∧
    c3post.getMapChildIndex 3 (str "y") (c3post.elt 3) = some (some 0) ∧
    (c3post.addMapChildIndex 3 (str "y") (c3post.elt 3) 0).map Prod.fst = some true := by
  decide

/-- keyHashOf is clamped above the Empty and Tombstone sentinels. -/
theorem keyHashOf_ge_two (p : Nat) (key : List Char) : 2 ≤ keyHashOf p key := by
  unfold keyHashOf
  dsimp only
  split <;> omega

/-- A tombstone never satisfies the probe match test. -/
theorem entryMatches_tombstone (ctx : Ctx) (p : Nat) (key : List Char) (parentElt : Element)
    (e : Entry) (h : e.hash = 1) :
    entryMatches ctx (keyHashOf p key) key parentElt e = false := by
  have h2 := keyHashOf_ge_two p key
  unfold entryMatches
  have hb : (e.hash == keyHashOf p key) = false := by
    simp only [beq_eq_false_iff_ne, ne_eq]
    omega
  simp [hb]

/-- Claim C3 amended: tombstones (hash 1) are traversed as occupied
non-matching slots by the find and remove probes (threshold Tombstone),
and only fully empty slots end those scans; the insert_or_replace probe
(threshold FirstValid) instead ends its scan at a tombstone and inserts
there, so it can insert a second entry rather than replace a matching
live entry lying beyond the tombstone. -/
theorem C3_amended_scan_thresholds (ctx : Ctx) (p : Nat) (key : List Char)
    (parentElt : Element) (entries : List Entry) (idx cellId rem : Nat)
    (h : (entries.getD (idx + cellId) zeroEntry).hash = 1) :
    scanLine entries 1 (entryMatches ctx (keyHashOf p key) key parentElt) idx cellId (rem + 1)
      = scanLine entries 1 (entryMatches ctx (keyHashOf p key) key parentElt) idx (cellId + 1) rem
    ∧ scanLine entries 2 (entryMatches ctx (keyHashOf p key) key parentElt) idx cellId (rem + 1)
      = .vacant cellId := by
  have h' : (entries[idx + cellId]?.getD zeroEntry).hash = 1 := by
    rw [← List.getD_eq_getElem?_getD]; exact h
  constructor
  · rw [scanLine]
    simp [h', entryMatches_tombstone ctx p key parentElt _ h']
  · rw [scanLine]
    simp [h']

/-- Witness of the amended C3 statement at the concrete tombstone slot
of c3post. -/
theorem C3_amended_scan_thresholds_witness :
    (c3post.entries.getD (8 + 0) zeroEntry).hash = 1 ∧
    (scanLine c3post.entries 1
        (entryMatches c3post (keyHashOf 3 (str "y")) (str "y") (c3post.elt 3)) 8 0 8
      = scanLine c3post.entries 1
        (entryMatches c3post (keyHashOf 3 (str "y")) (str "y") (c3post.elt 3)) 8 1 7
    ∧ scanLine c3post.entries 2
        (entryMatches c3post (keyHashOf 3 (str "y")) (str "y") (c3post.elt 3)) 8 0 8
      = .vacant 0) :=
  ⟨by decide, C3_amended_scan_thresholds c3post 3 (str "y") (c3post.elt 3) c3post.entries 8 0 7
    (by decide)⟩

/-- mapRoot after n Node::insert(key, key) calls with distinct keys
k0, k1, …. -/
def c9State (n : Nat) : Ctx :=
  ((List.range n).map (fun i => str "k" ++ (toString i).data)).foldl
    (fun ctx k => (nodeInsertValue ctx ⟨0, []⟩ k k).toOption.getD ctx) mapRoot

/-- Claim C9 counterexample: after 12 insertions the occupancy 12
exceeds 90/128 of the capacity 16 (11.25), so the claim requires the
table to have been doubled, but the code still holds 16 slots; the code
doubles only at the 15th insertion (128·15 > 115·16). -/
theorem C9_counterexample_no_resize_at_90_128 :
    (c9State 12).entryQty = 12 ∧
    (c9State 12).entries.length = 16 ∧
    128 * 12 > 90 * 16 ∧
    (c9State 14).entries.length = 16 ∧
    (c9State 15).entries.length = 32 := by
  set_option maxRecDepth 100000 in decide

/-- A fold whose function is strict in none stays none. -/
theorem foldl_none_fixed {α β : Type} (f : Option β → α → Option β)
    (hf : ∀ a, f none a = none) (l : List α) : l.foldl f none = none := by
  induction l with
  | nil => rfl
  | cons x xs ih => simp only [List.foldl_cons, hf]; exact ih

/-- The transfer fold of Context::resize preserves the table length. -/
theorem resize_foldl_length (mask fuelN : Nat) (l : List Entry) (arr arr' : List Entry)
    (h : l.foldl (fun acc e =>
        match acc with
        | none => none
        | some arr =>
          if e.hash < 2 then some arr
          else
            match probe arr 2 (fun _ => false) mask fuelN (e.hash &&& mask) 1 with
            | some (.vacant cellId, idx) => some (arr.set (idx + cellId) e)
            | _ => none) (some arr) = some arr') :
    arr'.length = arr.length := by
  induction l generalizing arr with
  | nil => simp at h; rw [h]
  | cons e rest ih =>
    simp only [List.foldl_cons] at h
    by_cases he : e.hash < 2
    · simp only [he, if_true] at h
      exact ih arr h
    · simp only [he, if_false] at h
      match hp : probe arr 2 (fun _ => false) mask fuelN (e.hash &&& mask) 1 with
      | none =>
        rw [hp, foldl_none_fixed _ (fun a => rfl)] at h; exact absurd h (by simp)
      | some (.found ci c, i) =>
        rw [hp, foldl_none_fixed _ (fun a => rfl)] at h; exact absurd h (by simp)
      | some (.full, i) =>
        rw [hp, foldl_none_fixed _ (fun a => rfl)] at h; exact absurd h (by simp)
      | some (.vacant c, i) =>
        rw [hp] at h
        have := ih (arr.set (i + c) e) h
        simpa using this

/-- Context::resize yields a table of exactly the requested size. -/
theorem resize_length (ctx : Ctx) (n : Nat) (ctx2 : Ctx) (h : ctx.resize n = some ctx2) :
    ctx2.entries.length = n := by
  unfold Ctx.resize at h
  dsimp only at h
  match hf : ctx.entries.foldl (fun acc e =>
      match acc with
      | none => none
      | some arr =>
        if e.hash < 2 then some arr
        else
          match probe arr 2 (fun _ => false) (maskOf n) (2 * n + 16) (e.hash &&& maskOf n) 1 with
          | some (.vacant cellId, idx) => some (arr.set (idx + cellId) e)
          | _ => none) (some (List.replicate n zeroEntry)) with
  | none => rw [hf] at h; exact absurd h (by simp)
  | some arr =>
    rw [hf] at h
    have hl := resize_foldl_length (maskOf n) (2 * n + 16) ctx.entries
      (List.replicate n zeroEntry) arr hf
    simp only [Option.map_some', Option.some.injEq] at h
    rw [← h]
    simpa using hl

/-- The capacity after one addMapChildIndex call: doubled exactly when
the call inserted and the new occupancy crossed 115/128 of capacity. -/
theorem addMapChildIndex_length (ctx ctx2 : Ctx) (p ci : Nat) (key : List Char)
    (elt : Element) (b : Bool) (h : ctx.addMapChildIndex p key elt ci = some (b, ctx2)) :
    ctx2.entries.length =
      (if b = true ∧ 128 * (ctx.entryQty + 1) > 115 * ctx.entries.length
       then 2 * ctx.entries.length else ctx.entries.length) := by
  unfold Ctx.addMapChildIndex at h
  dsimp only at h
  match hp : probe ctx.entries 2 (entryMatches ctx (keyHashOf p key) key elt)
      (maskOf ctx.entries.length) (probeFuel ctx.entries)
      (keyHashOf p key &&& maskOf ctx.entries.length) 1 with
  | none => rw [hp] at h; exact absurd h (by simp)
  | some (.full, i) => rw [hp] at h; exact absurd h (by simp)
  | some (.found ci2 c, i) =>
    rw [hp] at h
    simp only [Option.some.injEq, Prod.mk.injEq] at h
    obtain ⟨hb, hc⟩ := h
    subst hb
    rw [← hc]
    simp
  | some (.vacant c, i) =>
    rw [hp] at h
    simp only [List.length_set] at h
    by_cases hcond : 128 * (ctx.entryQty + 1) > 115 * ctx.entries.length
    · rw [if_pos hcond] at h
      match hr : Ctx.resize { ctx with
          entries := ctx.entries.set (i + c) ⟨keyHashOf p key, ci⟩,
          entryQty := ctx.entryQty + 1 } (2 * ctx.entries.length) with
      | none => rw [hr] at h; exact absurd h (by simp)
      | some cR =>
        rw [hr] at h
        simp only [Option.map_some', Option.some.injEq, Prod.mk.injEq] at h
        obtain ⟨hb, hc⟩ := h
        subst hb
        rw [← hc]
        rw [resize_length _ _ _ hr]
        simp [hcond]
    · rw [if_neg hcond] at h
      simp only [Option.some.injEq, Prod.mk.injEq] at h
      obtain ⟨hb, hc⟩ := h
      subst hb
      rw [← hc]
      simp [hcond]

/-- Claim C9 amended: the initial capacity is 16, and an insertion
doubles the capacity exactly when 128 times the new occupancy exceeds
115 times the capacity (115 = (uint64_t)(0.90·128), i.e. 90 percent of
capacity, not 90/128 of it); a replacement never resizes. -/
theorem C9_amended_resize_threshold (ctx ctx2 : Ctx) (p ci : Nat) (key : List Char)
    (elt : Element) (b : Bool) (h : ctx.addMapChildIndex p key elt ci = some (b, ctx2)) :
    Ctx.init.entries.length = 16 ∧
    (b = true → ctx2.entries.length =
      (if 128 * (ctx.entryQty + 1) > 115 * ctx.entries.length then 2 * ctx.entries.length
       else ctx.entries.length)) ∧
    (b = false → ctx2.entries.length = ctx.entries.length) := by
  have hl := addMapChildIndex_length ctx ctx2 p ci key elt b h
  refine ⟨by decide, ?_, ?_⟩ <;> intro hb <;> subst hb <;> simp_all

/-- Witness: the first insertion into mapRoot keeps capacity 16. -/
theorem C9_amended_resize_threshold_witness :
    Ctx.init.entries.length = 16 ∧
    (true = true →
      (((mapRoot.addMapChildIndex 0 (str "a") (mapRoot.elt 0) 5).getD (true, mapRoot)).2.entries.length =
        (if 128 * (mapRoot.entryQty + 1) > 115 * mapRoot.entries.length then 2 * mapRoot.entries.length
         else mapRoot.entries.length))) ∧
    (true = false →
      (((mapRoot.addMapChildIndex 0 (str "a") (mapRoot.elt 0) 5).getD (true, mapRoot)).2.entries.length =
        mapRoot.entries.length)) :=
  C9_amended_resize_threshold mapRoot
    (((mapRoot.addMapChildIndex 0 (str "a") (mapRoot.elt 0) 5).getD (true, mapRoot)).2)
    0 5 (str "a") (mapRoot.elt 0) true (by decide)

/-- A key whose wyhash collides with c2k2 under the parent XOR: the
32-bit wyhash values of "69039" and "89474" differ exactly in bit 1, so
keyHashOf 1 c2k1 = keyHashOf 3 c2k2. -/
def c2k1 : List Char := str "69039"

/-- The partner key of the hash collision (see c2k1). -/
def c2k2 : List Char := str "89474"

/-- twoMaps with map 1 (element 1) holding key c2k1 at position 0 and
map 3 (element 3) holding key c2k2 at position 0, both assigned through
pending-key handles.  Because the two (parent, key) pairs share their
hash and child position, the second insertion hits the replace path of
insert_or_replace (whose false return the assignment ignores), so one
live entry serves both pairs. -/
def c2pre : Ctx :=
  let a := ((nodeAssignString twoMaps ⟨1, c2k1⟩ (str "v")).toOption.getD (twoMaps, ⟨0, []⟩)).1
  ((nodeAssignString a ⟨3, c2k2⟩ (str "w")).toOption.getD (a, ⟨0, []⟩)).1

/-- c2pre after the public-API removal of c2k1 from map 1. -/
def c2post : Ctx := ((nodeRemoveKey c2pre ⟨1, []⟩ c2k1).toOption.getD (false, c2pre)).2

/-- Claim C2: index consistency is claimed to be preserved by every
map-altering operation.  In c2pre the invariant holds for (map 3, c2k2):
find returns position 0 and child 0 of map 3 is the Key named c2k2.
Removing c2k1 from map 1 — a plain Node::remove — tombstones the single
entry that served both hash-colliding pairs, so afterwards map 3 still
has the Key child c2k2 at position 0 but find reports it absent: the
operation broke the invariant.  (The slip: the Node insertion paths
ignore the false "replaced" return of addMapChildIndex.) -/
theorem C2_index_consistency_broken_by_remove :
    keyHashOf 1 c2k1 = keyHashOf 3 c2k2 ∧
    c2pre.getMapChildIndex 3 c2k2 (c2pre.elt 3) = some (some 0) ∧
    (c2pre.elt ((c2pre.elt 3).getSub 0)).getType = KEY ∧
    cString c2pre.arena ((c2pre.elt ((c2pre.elt 3).getSub 0)).getStringIdx) = c2k2 ∧
    (nodeRemoveKey c2pre ⟨1, []⟩ c2k1).toOption.map Prod.fst = some true ∧
    (c2post.elt 3).getSubQty = 1 ∧
    (c2post.elt ((c2post.elt 3).getSub 0)).getType = KEY ∧
    cString c2post.arena ((c2post.elt ((c2post.elt 3).getSub 0)).getStringIdx) = c2k2 ∧
    c2post.getMapChildIndex 3 c2k2 (c2post.elt 3) = some none := by
  decide

/-- Claim C5 counterexample: the scalar a(tab)b contains a tab, so the
claim requires a quoted style, yet the emitter chooses plain and the
document a: "a(tab)b" is emitted with the raw tab in plain style. -/
theorem C5_counterexample_tab_stays_plain :
    scalarStyle (str "a\tb") = .plain ∧
    '\t' ∈ str "a\tb" ∧
    yamlOfInput (str "a: " ++ ['"'] ++ str "a\tb" ++ ['"']) 100 = some (str "a: a\tb") := by
  decide

/-- The position test that strikes plain style for a colon: a `:`
followed (inside the string) by space, CR, or LF. -/
def colonStrike (s : List Char) (i : Nat) : Bool :=
  charAt s i == ':' && decide (i + 1 < s.length) &&
    (charAt s (i + 1) == ' ' || charAt s (i + 1) == '\r' || charAt s (i + 1) == '\n')

/-- The position test that strikes plain style for a hash: a `#` at the
start or preceded by a space. -/
def hashStrike (s : List Char) (i : Nat) : Bool :=
  charAt s i == '#' && (decide (i = 0) || charAt s (i - 1) == ' ')

/-- One style-scan step in closed form. -/
theorem styleScanStep_eq (s : List Char) (i : Nat) (acc : Bool × Nat) :
    styleScanStep s s.length i acc =
      (acc.1 && !(colonStrike s i || hashStrike s i),
       acc.2 + (if charAt s i = '\n' then 1 else 0)) := by
  rcases acc with ⟨b, c⟩
  simp only [styleScanStep, colonStrike, hashStrike]
  rcases b with _ | _ <;> split_ifs <;>
    simp_all [Bool.and_eq_true, Bool.or_eq_true, beq_iff_eq, decide_eq_true_eq] <;>
    first
    | tauto
    | omega
    | (refine ⟨?_, by tauto⟩
       by_cases hlen : i + 1 < s.length
       · tauto
       · exact Or.inl (Or.inr (by omega)))

/-- The plain flag after scanning the first n positions. -/
theorem styleFold_fst (s : List Char) (b0 : Bool) (c0 n : Nat) :
    ((List.range n).foldl (fun acc idx => styleScanStep s s.length idx acc) (b0, c0)).1
      = (b0 && decide (∀ i, i < n → colonStrike s i = false ∧ hashStrike s i = false)) := by
  induction n generalizing c0 with
  | zero => simp
  | succ n ih =>
    rw [List.range_succ, List.foldl_append]
    rcases hf : (List.range n).foldl (fun acc idx => styleScanStep s s.length idx acc) (b0, c0)
      with ⟨bf, cf⟩
    have hfst : bf = (b0 &&
        decide (∀ i, i < n → colonStrike s i = false ∧ hashStrike s i = false)) := by
      have := ih c0
      rw [hf] at this
      exact this
    have hneg : (!(colonStrike s n || hashStrike s n))
        = decide (colonStrike s n = false ∧ hashStrike s n = false) := by
      rcases hcs : colonStrike s n <;> rcases hhs : hashStrike s n <;> simp
    have hsplit : decide (∀ i, i < n + 1 → colonStrike s i = false ∧ hashStrike s i = false)
        = (decide (∀ i, i < n → colonStrike s i = false ∧ hashStrike s i = false) &&
           decide (colonStrike s n = false ∧ hashStrike s n = false)) := by
      by_cases h1 : (∀ i, i < n → colonStrike s i = false ∧ hashStrike s i = false) <;>
        by_cases h2 : (colonStrike s n = false ∧ hashStrike s n = false) <;>
        simp [h1, h2, Nat.forall_lt_succ]
    simp only [List.foldl_cons, List.foldl_nil, styleScanStep_eq, hfst, hsplit, hneg,
      Bool.and_assoc]

set_option linter.unnecessarySeqFocus false in
/-- The newline count after scanning the first n positions. -/
theorem styleFold_snd (s : List Char) (b0 : Bool) (c0 n : Nat) :
    ((List.range n).foldl (fun acc idx => styleScanStep s s.length idx acc) (b0, c0)).2
      = c0 + (List.range n).countP (fun i => charAt s i == '\n') := by
  induction n generalizing b0 c0 with
  | zero => simp
  | succ n ih =>
    rw [List.range_succ, List.foldl_append, List.countP_append]
    rcases hf : (List.range n).foldl (fun acc idx => styleScanStep s s.length idx acc) (b0, c0)
      with ⟨bf, cf⟩
    have hsnd : cf = c0 + (List.range n).countP (fun i => charAt s i == '\n') := by
      have := ih b0 c0
      rw [hf] at this
      exact this
    subst hsnd
    simp only [List.foldl_cons, List.foldl_nil, styleScanStep_eq]
    by_cases hnl : charAt s n = '\n' <;>
      simp [hnl, List.countP_cons] <;> omega

/-- The scalar style rule as the amended claim words it: plain iff the
scalar neither starts with space, >, |, a single quote or a double
quote, nor ends with space, nor contains a newline, a colon followed by
space/CR/LF, or a hash at the start or after a space; otherwise
single-quoted without a newline, double-quoted with one. -/
def styleSpec (s : List Char) : ScalarStyle :=
  if (charAt s 0 ≠ ' ' ∧ charAt s 0 ≠ '>' ∧ charAt s 0 ≠ '|' ∧
      charAt s 0 ≠ squote ∧ charAt s 0 ≠ '"' ∧ charAt s (s.length - 1) ≠ ' ') ∧
     (∀ i, i < s.length → charAt s i ≠ '\n') ∧
     (∀ i, i < s.length → colonStrike s i = false ∧ hashStrike s i = false) then .plain
  else if ∀ i, i < s.length → charAt s i ≠ '\n' then .singleQ
  else .doubleQ

/-- Claim C5 amended: the emitter style selection equals the corrected
rule styleSpec.  Relative to the claim: a tab or CR alone does not force
quoting, nor does a colon at the very end of the scalar; the remaining
conditions are as claimed. -/
theorem C5_amended_style_rule (s : List Char) : scalarStyle s = styleSpec s := by
  have hcnt : ((List.range s.length).countP (fun i => charAt s i == '\n') = 0
      ↔ ∀ i, i < s.length → charAt s i ≠ '\n') := by
    rw [List.countP_eq_zero]
    constructor
    · intro hno i hi
      have := hno i (List.mem_range.mpr hi)
      simpa using this
    · intro hno i hi
      simpa using hno i (List.mem_range.mp hi)
  unfold scalarStyle styleSpec
  dsimp only
  rw [styleFold_fst, styleFold_snd]
  by_cases hinit : (charAt s 0 ≠ ' ' ∧ charAt s 0 ≠ '>' ∧ charAt s 0 ≠ '|' ∧
      charAt s 0 ≠ squote ∧ charAt s 0 ≠ '"' ∧ charAt s (s.length - 1) ≠ ' ') <;>
    by_cases hstr : (∀ i, i < s.length → colonStrike s i = false ∧ hashStrike s i = false) <;>
    by_cases hnl : (∀ i, i < s.length → charAt s i ≠ '\n') <;>
    simp [hinit, hstr, hnl, hcnt, and_comm]

/-- The error of an Except, as an Option (Except carries no decidable
equality of its own). -/
def errOf {e a : Type} : Except e a → Option e
  | .error x => some x
  | .ok _ => none

/-- The C7 counterexample input: a: then a double-quoted scalar whose
continuation line starts with a tab. -/
def c7Input : List Char := str "a: " ++ ['"'] ++ str "x" ++ ['\n', '\t'] ++ str "y" ++ ['"']

/-- Claim C7 counterexample: the input a: "x⏎⇥y" carries a tab as the
whole leading indentation of its second line, yet parse succeeds (the
tab check of the scalar line loop is gated by the new-line flag, false
for a quoted scalar opened after the key), and the tab survives into
the value. -/
theorem C7_counterexample_tab_in_quoted_continuation :
    charAt c7Input 5 = '\n' ∧ charAt c7Input 6 = '\t' ∧
    (parseE c7Input).toOption.isSome = true ∧
    yamlOfInput c7Input 100 = some (str "a: x " ++ ['\t'] ++ str "y") := by
  decide

/-- A sqLine error is the unfinished-single-quote one, never the
tabulation error. -/
theorem sqLine_err (text : List Char) (endIdx skFuel lineNbr : Nat) (sh0 : SH)
    (nonSpaceIdx : Nat) (e : PErr)
    (h : sqLine text endIdx skFuel lineNbr sh0 nonSpaceIdx = .error e) :
    e.msg ≠ tabMsg := by
  unfold sqLine at h
  dsimp only at h
  rcases hq : sqScan text endIdx (endIdx + skFuel + 16) sh0 (!sh0.empty) nonSpaceIdx nonSpaceIdx
    with ⟨sh1, fa1, cs1, le1, fin⟩
  rw [hq] at h
  dsimp only at h
  split at h
  · cases h
    dsimp only
    decide
  · split at h <;> exact absurd h (by simp)

/-- A dqLine error is the unfinished-double-quote one, never the
tabulation error. -/
theorem dqLine_err (text : List Char) (endIdx skFuel lineNbr : Nat) (sh0 : SH)
    (nonSpaceIdx : Nat) (e : PErr)
    (h : dqLine text endIdx skFuel lineNbr sh0 nonSpaceIdx = .error e) :
    e.msg ≠ tabMsg := by
  unfold dqLine at h
  dsimp only at h
  rcases hq : dqScan text endIdx skFuel (endIdx + skFuel + 16) sh0 (!sh0.empty) nonSpaceIdx
      nonSpaceIdx
    with ⟨sh1, fa1, cs1, le1⟩
  rw [hq] at h
  dsimp only at h
  split at h
  · cases h
    dsimp only
    decide
  · split at h <;> exact absurd h (by simp)

/-- No per-line scalar handler can raise the tabulation error. -/
theorem lineBody_not_tab (text : List Char) (endIdx skFuel : Nat) (mlType : Char)
    (lineNbr : Nat) (sh : SH) (nonSpaceIdx idxLineStart effectiveIndent colNbr : Nat)
    (targetIndent : Int) (iFL : Bool) (e : PErr)
    (h : lineBody text endIdx skFuel mlType lineNbr sh nonSpaceIdx idxLineStart
      effectiveIndent colNbr targetIndent iFL = .error e) : e.msg ≠ tabMsg := by
  unfold lineBody at h
  split at h
  · rcases hq : sqLine text endIdx skFuel lineNbr sh nonSpaceIdx with e1 | v1
    · rw [hq] at h
      cases h
      exact sqLine_err text endIdx skFuel lineNbr sh nonSpaceIdx _ hq
    · rw [hq] at h
      obtain ⟨a1, a2, a3⟩ := v1
      exact absurd h (by simp)
  · split at h
    · rcases hq : dqLine text endIdx skFuel lineNbr sh nonSpaceIdx with e1 | v1
      · rw [hq] at h
        cases h
        exact dqLine_err text endIdx skFuel lineNbr sh nonSpaceIdx _ hq
      · rw [hq] at h
        obtain ⟨a1, a2, a3⟩ := v1
        exact absurd h (by simp)
    · split at h
      · exact absurd h (by simp)
      · split at h <;> exact absurd h (by simp)

/-- getToken's leading-indentation scan on a fresh line (the column is
0, so the new-line flag is set): a tab at the first non-space byte is
the tabulation error, whatever the rest of the input holds. -/
theorem getToken_tab_fresh_line (text : List Char) (endIdx : Nat) (parentIndent : Int)
    (ctx : Ctx) (lineNbr0 idx0 : Nat)
    (h : charAt text (skipWhile2 text endIdx (fun c => c == ' ') idx0) = '\t') :
    getToken text endIdx parentIndent ctx 0 lineNbr0 idx0 = .error ⟨lineNbr0, tabMsg⟩ := by
  unfold getToken
  simp only [beq_self_eq_true, h, eq_self_iff_true, if_true]

/-- The scalar per-line loop with the new-line flag set (a scalar whose
style run started at a line start, as for block scalars): a tab at the
first non-space byte of a content line is the tabulation error at that
line. -/
theorem lineLoop_tab_newline (text : List Char) (endIdx skFuel : Nat) (mlType : Char)
    (fuel : Nat) (st : LLS)
    (h1 : st.idx < endIdx)
    (h2 : skipWhile2 text endIdx (fun c => c == ' ') st.idx < endIdx)
    (h3 : charAt text (skipWhile2 text endIdx (fun c => c == ' ') st.idx) = '\t') :
    lineLoop text endIdx skFuel mlType true (fuel + 1) st = .error ⟨st.lineNbr, tabMsg⟩ := by
  unfold lineLoop
  dsimp only
  have hc : (true = true) ∧ skipWhile2 text endIdx (fun c => c == ' ') st.idx < endIdx ∧
      charAt text (skipWhile2 text endIdx (fun c => c == ' ') st.idx) = '\t' := ⟨rfl, h2, h3⟩
  rw [if_pos h1, if_pos hc]

/-- The scalar per-line loop with the new-line flag clear (a scalar
opened after other content on its first line, as a quoted scalar after
key-colon-space): no run, over any state and any number of lines, can
raise the tabulation error — leading tabs of continuation lines are
consumed as content. -/
theorem lineLoop_not_tab_midline (text : List Char) (endIdx skFuel : Nat) (mlType : Char) :
    ∀ (fuel : Nat) (st : LLS) (e : PErr),
      lineLoop text endIdx skFuel mlType false fuel st = .error e → e.msg ≠ tabMsg := by
  intro fuel
  induction fuel with
  | zero =>
    intro st e h
    unfold lineLoop at h
    cases h
    decide
  | succ n ih =>
    intro st e h
    unfold lineLoop at h
    split at h
    case isFalse => exact absurd h (by simp)
    case isTrue hidx =>
      simp only [Bool.false_eq_true, false_and, if_false] at h
      by_cases hbl : st.targetIndent < 0 ∧
          (charAt text (skipWhile2 text endIdx (fun c => c == ' ') st.idx) = '\n' ∨
            charAt text (skipWhile2 text endIdx (fun c => c == ' ') st.idx) = '\r')
      · rw [if_pos hbl] at h
        exact ih _ _ h
      · rw [if_neg hbl] at h
        rcases hb : lineBody text endIdx skFuel mlType st.lineNbr st.sh
            (skipWhile2 text endIdx (fun c => c == ' ') st.idx) st.idx
            (skipWhile2 text endIdx (fun c => c == ' ') st.idx - st.idx)
            (st.colNbr + (skipWhile2 text endIdx (fun c => c == ' ') st.idx - st.idx))
            (if st.targetIndent < 0 then
              ((st.colNbr + (skipWhile2 text endIdx (fun c => c == ' ') st.idx - st.idx) : Nat) : Int)
            else st.targetIndent) st.iFL with e1 | lo
        · rw [hb] at h
          dsimp only at h
          cases h
          exact lineBody_not_tab _ _ _ _ _ _ _ _ _ _ _ _ _ hb
        · rw [hb] at h
          dsimp only at h
          by_cases hend : lo.isEnd = true
          · rw [if_pos hend] at h
            exact absurd h (by simp)
          · rw [if_neg hend] at h
            repeat' split at h
            all_goals
              first
              | exact ih _ _ h
              | (cases h
                 all_goals (dsimp only; decide))

/-- Claim C7 amended: a tab is a hard tabulation error exactly where
the indentation scan runs with the new-line flag set — at a token
start on a fresh line (for every input, cursor and context), and on
the content lines of a scalar whose style run began at a line start,
as block scalars do (for every line-loop state) — while a scalar
opened after other content on its line can never raise the tabulation
error from any of its lines, and a tab after non-whitespace is kept as
part of the value (shown end to end). -/
theorem C7_amended_tab_rules :
    (∀ (text : List Char) (endIdx : Nat) (parentIndent : Int) (ctx : Ctx)
        (lineNbr0 idx0 : Nat),
      charAt text (skipWhile2 text endIdx (fun c => c == ' ') idx0) = '\t' →
      getToken text endIdx parentIndent ctx 0 lineNbr0 idx0 = .error ⟨lineNbr0, tabMsg⟩) ∧
    (∀ (text : List Char) (endIdx skFuel : Nat) (mlType : Char) (fuel : Nat) (st : LLS),
      st.idx < endIdx →
      skipWhile2 text endIdx (fun c => c == ' ') st.idx < endIdx →
      charAt text (skipWhile2 text endIdx (fun c => c == ' ') st.idx) = '\t' →
      lineLoop text endIdx skFuel mlType true (fuel + 1) st = .error ⟨st.lineNbr, tabMsg⟩) ∧
    (∀ (text : List Char) (endIdx skFuel : Nat) (mlType : Char) (fuel : Nat) (st : LLS)
        (e : PErr),
      lineLoop text endIdx skFuel mlType false fuel st = .error e → e.msg ≠ tabMsg) ∧
    errOf (parseE (['\t'] ++ str "- a")) = some ⟨1, tabMsg⟩ ∧
    errOf (parseE (str "- |+" ++ ['\n', '\t'] ++ str "b")) = some ⟨2, tabMsg⟩ ∧
    (parseE (str "a: x" ++ ['\t'] ++ str "y")).toOption.isSome = true ∧
    yamlOfInput (str "a: x" ++ ['\t'] ++ str "y") 100
      = some (str "a: x" ++ ['\t'] ++ str "y") :=
  ⟨getToken_tab_fresh_line,
   fun text endIdx skFuel mlType fuel st =>
     lineLoop_tab_newline text endIdx skFuel mlType fuel st,
   fun text endIdx skFuel mlType => lineLoop_not_tab_midline text endIdx skFuel mlType,
   by decide, by decide, by decide, by decide⟩

/-- Witness of the amended C7 statement: its universal parts applied at
the concrete tab-opened token start, at a literal-block content line
opened by a tab, and at a mid-line double-quoted run that errors (only)
as unfinished. -/
theorem C7_amended_tab_rules_witness :
    (charAt (['\t'] ++ str "- a")
        (skipWhile2 (['\t'] ++ str "- a") 4 (fun c => c == ' ') 0) = '\t' ∧
      getToken (['\t'] ++ str "- a") 4 (-1) docInit 0 1 0 = .error ⟨1, tabMsg⟩) ∧
    ((0 : Nat) < 2 ∧
      skipWhile2 ['\t', 'b'] 2 (fun c => c == ' ') 0 < 2 ∧
      charAt ['\t', 'b'] (skipWhile2 ['\t', 'b'] 2 (fun c => c == ' ') 0) = '\t' ∧
      lineLoop ['\t', 'b'] 2 18 '|' true 3 ⟨SH.start, 0, 0, 2, 0, false, false⟩
        = .error ⟨2, tabMsg⟩) ∧
    (lineLoop (str "x") 1 17 '"' false 5 ⟨SH.start, 0, 3, 1, -1, false, false⟩
        = .error ⟨1, "Parse error: unfinished double-quote string"⟩ ∧
      ("Parse error: unfinished double-quote string" : String) ≠ tabMsg) :=
  ⟨⟨by decide, C7_amended_tab_rules.1 (['\t'] ++ str "- a") 4 (-1) docInit 1 0 (by decide)⟩,
   ⟨by decide, by decide, by decide,
     C7_amended_tab_rules.2.1 ['\t', 'b'] 2 18 '|' 2 ⟨SH.start, 0, 0, 2, 0, false, false⟩
       (by decide) (by decide) (by decide)⟩,
   ⟨by rfl,
     C7_amended_tab_rules.2.2.1 (str "x") 1 17 '"' 5 ⟨SH.start, 0, 3, 1, -1, false, false⟩
       ⟨1, "Parse error: unfinished double-quote string"⟩ (by rfl)⟩⟩

/-- Claim C8 counterexample: the empty key is absent from the root map,
yet indexing with it does not return a pending-key handle: it raises an
access error. -/
theorem C8_counterexample_empty_key_rejected :
    (mapRoot.elt 0).getType = MAP ∧
    errOf (nodeIndexKey mapRoot ⟨0, []⟩ [])
      = some "Access error: empty key is not allowed to access a MAP element" := by
  decide

/-- Claim C8 amended: for a MAP node (not itself pending) and a
non-empty key the index reports absent, operator[] returns the
pending-key handle, whose truthiness is false; as⟨string⟩() on it
raises the access error naming the key, and as⟨string⟩(default)
returns the default. -/
theorem C8_amended_pending_key_handle (ctx : Ctx) (n : NodeRef) (key dflt : List Char)
    (hmap : (ctx.elt n.eltIdx).getType = MAP)
    (hpend : n.nonExistingKey = [])
    (hne : key ≠ [])
    (habs : ctx.getMapChildIndex n.eltIdx key (ctx.elt n.eltIdx) = some none) :
    nodeIndexKey ctx n key = .ok ⟨n.eltIdx, key⟩ ∧
    nodeBool ctx ⟨n.eltIdx, key⟩ = false ∧
    nodeAsString ctx ⟨n.eltIdx, key⟩ = .error (castMissMsg key) ∧
    nodeAsStringD ctx ⟨n.eltIdx, key⟩ dflt = .ok dflt := by
  refine ⟨?_, ?_, ?_, ?_⟩
  · unfold nodeIndexKey
    simp [hmap, hpend, hne, habs]
  · unfold nodeBool
    simp [hmap, hne]
  · unfold nodeAsString
    simp [hmap, hne]
  · unfold nodeAsStringD
    simp [hmap, hne]

/-- Witness of the amended C8 statement: the key q on the empty root
map of mapRoot. -/
theorem C8_amended_pending_key_handle_witness :
    ((mapRoot.elt 0).getType = MAP ∧ str "q" ≠ [] ∧
      mapRoot.getMapChildIndex 0 (str "q") (mapRoot.elt 0) = some none) ∧
    (nodeIndexKey mapRoot ⟨0, []⟩ (str "q") = .ok ⟨0, str "q"⟩ ∧
     nodeBool mapRoot ⟨0, str "q"⟩ = false ∧
     nodeAsString mapRoot ⟨0, str "q"⟩ = .error (castMissMsg (str "q")) ∧
     nodeAsStringD mapRoot ⟨0, str "q"⟩ (str "fallback") = .ok (str "fallback")) :=
  ⟨⟨by decide, by decide, by decide⟩,
   C8_amended_pending_key_handle mapRoot ⟨0, []⟩ (str "q") (str "fallback")
     (by decide) rfl (by decide) (by decide)⟩

/-- Context::removeMapChildIndex on an absent key takes the same probe
as getMapChildIndex and returns UINT_MAX with the entry table
untouched. -/
theorem removeMapChildIndex_absent (ctx : Ctx) (p : Nat) (key : List Char)
    (parentElt : Element)
    (h : ctx.getMapChildIndex p key parentElt = some none) :
    ctx.removeMapChildIndex p key parentElt = some (none, ctx) := by
  unfold Ctx.getMapChildIndex at h
  unfold Ctx.removeMapChildIndex
  dsimp only at h ⊢
  cases hp : probe ctx.entries 1 (entryMatches ctx (keyHashOf p key) key parentElt)
      (maskOf ctx.entries.length) (probeFuel ctx.entries)
      (keyHashOf p key &&& maskOf ctx.entries.length) 1 with
  | none => rw [hp] at h; exact absurd h (by simp)
  | some r =>
    obtain ⟨s, idx⟩ := r
    cases s with
    | found ci cellId => rw [hp] at h; exact absurd h (by simp)
    | vacant cellId => rfl
    | full => rfl

/-- Claim C10: Node::remove on a MAP node with a key the index reports
absent returns false and leaves the whole document state unchanged; no
exception is raised. -/
theorem C10_remove_absent_key_noop (ctx : Ctx) (n : NodeRef) (key : List Char)
    (hmap : (ctx.elt n.eltIdx).getType = MAP)
    (habs : ctx.getMapChildIndex n.eltIdx key (ctx.elt n.eltIdx) = some none) :
    nodeRemoveKey ctx n key = .ok (false, ctx) := by
  unfold nodeRemoveKey
  dsimp only
  rw [if_neg (by simp [hmap]),
    removeMapChildIndex_absent ctx n.eltIdx key (ctx.elt n.eltIdx) habs]

/-- Witness of C10: removing the absent key zz from the map element 1
of c3pre returns false with the context unchanged. -/
theorem C10_remove_absent_key_noop_witness :
    ((c3pre.elt 1).getType = MAP ∧
      c3pre.getMapChildIndex 1 (str "zz") (c3pre.elt 1) = some none) ∧
    nodeRemoveKey c3pre ⟨1, []⟩ (str "zz") = .ok (false, c3pre) :=
  ⟨⟨by decide, by decide⟩,
   C10_remove_absent_key_noop c3pre ⟨1, []⟩ (str "zz") (by decide) (by decide)⟩

/-- The context the TokenType::Key case has built just before its
duplicate test, for a parent that is already a MAP with its child
indent fixed: the new Key element is appended and linked under the
parent (the ctx3/ctx4 steps of stepKey). -/
def keyStepCtx4 (ctx : Ctx) (tok : Tok) (parentEltIdx : Nat) : Ctx :=
  let eltIdx := ctx.elements.length
  let ctx3 := { ctx with elements := ctx.elements ++ [Element.key tok.stringIdx tok.stringSize 0 0] }
  { ctx3 with elements := ctx3.elements.set parentEltIdx ((ctx3.elt parentEltIdx).add eltIdx) }

set_option maxRecDepth 1000000 in
/-- Claim C4: when a Key token names a key that the parent map's child
index already holds (addMapChildIndex reports a replacement instead of
an insertion), the parser rejects it with the duplicated-key parse
error at the token's line; the duplicate-key document
a: b / c: d / a: f is refused end to end with exactly that message at
line 3 (no document is returned), and the message contains the words
duplicated key. -/
theorem C4_duplicate_key_parse_error (st : PState) (tok : Tok) (stack1 : PStack)
    (parent1 : ParseItem) (ctx5 : Ctx)
    (hpop : keyPop tok.startColNbr st.stack st.parent = (stack1, parent1))
    (hne : stack1 ≠ [])
    (hci : 0 ≤ parent1.childIndent)
    (hcol : ¬((tok.startColNbr : Int) < parent1.childIndent))
    (hmap : (st.ctx.elt parent1.eltIdx).getType = MAP)
    (hdup : (keyStepCtx4 st.ctx tok parent1.eltIdx).addMapChildIndex parent1.eltIdx
        (arenaStr (keyStepCtx4 st.ctx tok parent1.eltIdx) tok.stringIdx (tok.stringSize - 1))
        ((keyStepCtx4 st.ctx tok parent1.eltIdx).elt parent1.eltIdx)
        (((keyStepCtx4 st.ctx tok parent1.eltIdx).elt parent1.eltIdx).getSubQty - 1)
      = some (false, ctx5)) :
    stepKey st tok = .error ⟨st.tokenLineNbr, dupKeyMsg (cString ctx5.arena tok.stringIdx)⟩ ∧
    errOf (parseE (str "a: b" ++ ['\n'] ++ str "c: d" ++ ['\n'] ++ str "a: f"))
      = some ⟨3, dupKeyMsg (str "a")⟩ ∧
    ((dupKeyMsg (str "a")).drop 13).take 14 = "duplicated key" := by
  have h2 : ¬(parent1.childIndent ≥ 0 ∧ (tok.startColNbr : Int) < parent1.childIndent) :=
    fun h => hcol h.2
  have h3 : ¬(parent1.childIndent < 0) := by omega
  have h4 : ¬((st.ctx.elt parent1.eltIdx).getType ≠ MAP) := by simp [hmap]
  refine ⟨?_, by decide, by decide⟩
  unfold stepKey
  dsimp only
  rw [hpop]
  rw [if_neg (by simp [hne])]
  rw [if_neg h2]
  rw [if_neg h3]
  dsimp only
  rw [if_neg h4]
  dsimp only
  rw [if_neg h3]
  unfold keyStepCtx4 at hdup
  dsimp only at hdup
  rw [hdup]
  simp

/-- The parser state of the C4 witness: the root map of twoMaps (keys m
and z) is the open parent frame, and the incoming Key token names m
again (arena bytes 1..2 of twoMaps hold the stored string m). -/
def c4st : PState := ⟨twoMaps, [⟨0, -1, 0⟩], ⟨0, -1, 0⟩, -1, 0, 1, 0, 3, 0⟩

/-- The duplicate Key token of the C4 witness. -/
def c4tok : Tok := ⟨.Key, 0, 1, 2⟩

/-- The pre-duplicate-test context of the C4 witness. -/
def c4ctx4 : Ctx := keyStepCtx4 twoMaps c4tok 0

/-- The context addMapChildIndex returns alongside false in the C4
witness. -/
def c4ctx5 : Ctx :=
  ((c4ctx4.addMapChildIndex 0 (arenaStr c4ctx4 1 1) (c4ctx4.elt 0)
      ((c4ctx4.elt 0).getSubQty - 1)).getD (true, c4ctx4)).2

/-- Witness of C4 at the concrete duplicate of key m under the root map
of twoMaps. -/
theorem C4_duplicate_key_parse_error_witness :
    (keyPop ((c4tok.startColNbr : Int)) c4st.stack c4st.parent
        = ([⟨0, -1, 0⟩], ⟨0, -1, 0⟩) ∧
      (c4st.ctx.elt 0).getType = MAP ∧
      c4ctx4.addMapChildIndex 0 (arenaStr c4ctx4 1 1) (c4ctx4.elt 0)
        ((c4ctx4.elt 0).getSubQty - 1) = some (false, c4ctx5)) ∧
    (stepKey c4st c4tok
        = .error ⟨3, dupKeyMsg (cString c4ctx5.arena 1)⟩ ∧
      errOf (parseE (str "a: b" ++ ['\n'] ++ str "c: d" ++ ['\n'] ++ str "a: f"))
        = some ⟨3, dupKeyMsg (str "a")⟩ ∧
      ((dupKeyMsg (str "a")).drop 13).take 14 = "duplicated key") :=
  ⟨⟨by decide, by decide, by decide⟩,
   C4_duplicate_key_parse_error c4st c4tok [⟨0, -1, 0⟩] ⟨0, -1, 0⟩ c4ctx5
     (by decide) (by decide) (by decide) (by decide) (by decide) (by decide)⟩

/-- A chunk slice shaped like an assembled scalar line: a newline byte
can stand only at position 0 (the blank-line marker chunks the line
loop pushes). -/
def sliceShaped (arena : List Char) (lc : LineChunk) : Bool :=
  (List.range (chunkSlice arena lc).length).all
    (fun j => j == 0 || (chunkSlice arena lc).getD j nulChar != '\n')

/-- Folding list appends equals the join of the mapped slices. -/
theorem foldl_append_join {a b : Type} (f : a → List b) (l : List a) (acc : List b) :
    l.foldl (fun s x => s ++ f x) acc = acc ++ (l.map f).flatten := by
  induction l generalizing acc with
  | nil => simp
  | cons x xs ih => simp [ih]

/-- chunksFlat as a join. -/
theorem chunksFlat_eq_join (sh : SH) :
    chunksFlat sh = (sh.chunks.map (chunkSlice sh.arena)).flatten := by
  unfold chunksFlat
  simpa using foldl_append_join (chunkSlice sh.arena) sh.chunks []

/-- The head of a non-empty dropWhile result fails the predicate. -/
theorem dropWhile_cons_head {a : Type} (p : a → Bool) (l : List a) (x : a) (xs : List a)
    (h : l.dropWhile p = x :: xs) : p x = false := by
  induction l with
  | nil => simp [List.dropWhile] at h
  | cons c cs ih =>
    by_cases hp : p c = true
    · rw [List.dropWhile_cons_of_pos hp] at h
      exact ih h
    · rw [List.dropWhile_cons_of_neg hp] at h
      injection h with h1 h2
      subst h1
      simpa using hp

/-- A shaped, non-blank chunk slice is non-empty and does not end with
a newline. -/
theorem slice_getLast_not_nl (arena : List Char) (lc : LineChunk)
    (hsh : sliceShaped arena lc = true)
    (hnb : chunkIsBlank arena lc = false) :
    chunkSlice arena lc ≠ [] ∧ (chunkSlice arena lc).getLast? ≠ some '\n' := by
  unfold chunkIsBlank at hnb
  rw [List.all_eq_false] at hnb
  obtain ⟨x, hmem, hx⟩ := hnb
  have hne : chunkSlice arena lc ≠ [] := List.ne_nil_of_mem hmem
  refine ⟨hne, ?_⟩
  unfold sliceShaped at hsh
  rw [List.all_eq_true] at hsh
  intro hlast
  rw [List.getLast?_eq_getElem?] at hlast
  have hlen : 0 < (chunkSlice arena lc).length := List.length_pos.mpr hne
  by_cases h1 : (chunkSlice arena lc).length = 1
  · obtain ⟨c, hc⟩ := List.length_eq_one.mp h1
    rw [hc] at hmem hlast
    simp at hmem hlast
    rw [hmem, hlast] at hx
    simp at hx
  · have h2 : 1 ≤ (chunkSlice arena lc).length - 1 := by omega
    have h3 := hsh ((chunkSlice arena lc).length - 1)
      (List.mem_range.mpr (by omega))
    have h4 : (chunkSlice arena lc).getD ((chunkSlice arena lc).length - 1) nulChar
        = '\n' := by
      rw [List.getD_eq_getElem?_getD, hlast]
      rfl
    rw [h4] at h3
    simp at h3
    omega

/-- After dropping trailing blank chunks, the concatenation of the
shaped chunk slices does not end with a newline. -/
theorem strip_flat_getLast (arena : List Char) (chunks : List LineChunk)
    (hsh : ∀ lc ∈ chunks, sliceShaped arena lc = true) :
    (((chunks.reverse.dropWhile (fun lc => chunkIsBlank arena lc)).reverse.map
        (chunkSlice arena)).flatten).getLast? ≠ some '\n' := by
  cases hdw : chunks.reverse.dropWhile (fun lc => chunkIsBlank arena lc) with
  | nil => simp [hdw]
  | cons lc rest =>
    have hfalse : chunkIsBlank arena lc = false := dropWhile_cons_head _ _ _ _ hdw
    have hmem : lc ∈ chunks := by
      have h1 : lc ∈ chunks.reverse.dropWhile (fun lc => chunkIsBlank arena lc) := by
        rw [hdw]
        exact List.mem_cons_self _ _
      exact List.mem_reverse.mp (List.Sublist.mem h1 (List.dropWhile_sublist _))
    obtain ⟨hne, hlast⟩ := slice_getLast_not_nl arena lc (hsh lc hmem) hfalse
    rw [List.reverse_cons, List.map_append, List.flatten_append]
    simp only [List.map_cons, List.map_nil, List.flatten_cons, List.flatten_nil, List.append_nil]
    rw [List.getLast?_append_of_ne_nil _ hne]
    exact hlast

/-- Claim C6: for a block scalar (| or >) over line-shaped chunks, the
committed string under strip (-) has no trailing newline; under clip
(no indicator) it is a newline-free-tailed string plus exactly one
newline; under keep (+) it is the full chunk concatenation, every
trailing newline preserved, plus the final newline of the last
line. -/
theorem C6_block_scalar_chomp (mlType : Char) (sh : SH)
    (hml : mlType = '|' ∨ mlType = '>')
    (hsh : ∀ lc ∈ sh.chunks, sliceShaped sh.arena lc = true) :
    (committedString mlType '-' sh).getLast? ≠ some '\n' ∧
    (∃ r, committedString mlType ' ' sh = r ++ ['\n'] ∧ r.getLast? ≠ some '\n') ∧
    committedString mlType '+' sh = chunksFlat sh ++ ['\n'] := by
  have hq1 : mlType ≠ squote := by
    rcases hml with rfl | rfl <;> decide
  have hq2 : mlType ≠ '"' := by
    rcases hml with rfl | rfl <;> decide
  have hstripSh : applyChomp mlType '-' sh = sh.removeTrailingLines := by
    unfold applyChomp
    rw [if_pos ⟨hq1, hq2, Or.inl rfl⟩]
  have hclipSh : applyChomp mlType ' ' sh = sh.removeTrailingLines := by
    unfold applyChomp
    rw [if_pos ⟨hq1, hq2, Or.inr rfl⟩]
  have hkeepSh : applyChomp mlType '+' sh = sh := by
    unfold applyChomp
    rw [if_neg (by intro h; rcases h.2.2 with h | h <;> simp at h)]
  have hflat : chunksFlat sh.removeTrailingLines
      = ((sh.chunks.reverse.dropWhile (fun lc => chunkIsBlank sh.arena lc)).reverse.map
          (chunkSlice sh.arena)).flatten := by
    rw [chunksFlat_eq_join]
    rfl
  have hnl : (Char.ofNat 10) = '\n' := by decide
  refine ⟨?_, ?_, ?_⟩
  · unfold committedString
    rw [hstripSh, if_neg (by intro h; rcases h.2 with h | h <;> simp at h)]
    rw [List.append_nil, hflat]
    exact strip_flat_getLast sh.arena sh.chunks hsh
  · refine ⟨chunksFlat sh.removeTrailingLines, ?_, ?_⟩
    · unfold committedString
      rw [hclipSh, if_pos ⟨hml, Or.inl rfl⟩, hnl]
    · rw [hflat]
      exact strip_flat_getLast sh.arena sh.chunks hsh
  · unfold committedString
    rw [hkeepSh, if_pos ⟨hml, Or.inr rfl⟩, hnl]

/-- The helper state of the C6 witness: the literal-block content line
b followed by two blank-line chunks, as the line loop assembles for
|⏎b⏎⏎⏎. -/
def c6sh : SH := ((SH.start.addLine (str "b")).addLine ['\n']).addLine ['\n']

/-- Witness of C6 on c6sh: strip ends without newline, clip with
exactly one, keep preserves both blank-line newlines plus the final
one. -/
theorem C6_block_scalar_chomp_witness :
    (('|' : Char) = '|' ∨ ('|' : Char) = '>') ∧
    (∀ lc ∈ c6sh.chunks, sliceShaped c6sh.arena lc = true) ∧
    ((committedString '|' '-' c6sh).getLast? ≠ some '\n' ∧
     (∃ r, committedString '|' ' ' c6sh = r ++ ['\n'] ∧ r.getLast? ≠ some '\n') ∧
     committedString '|' '+' c6sh = chunksFlat c6sh ++ ['\n']) :=
  ⟨Or.inl rfl, by decide,
   C6_block_scalar_chomp '|' c6sh (Or.inl rfl) (by decide)⟩

end Styml
